import Mathlib

/-! # DHT humidity and temperature sensor driver (`src/DHT.h`)

A shallow embedding of the class template `DHT<DATA_PIN, DEVICE>`.

* The pin `m_data` together with the sensor driving it is a `GPIO` value: two
  oracles give what successive samplings of the pin and successive calls of
  `pulse()` return, two counters say how many of each were consumed, and a
  log records every operation performed on the line.
* `uint8_t` values are naturals reduced modulo 256 where the code stores them.
* `int` values produced by the shifts are bit patterns of `intBits` bits
  (16 on AVR boards, 32 on SAM boards), read back as two's complement.
* `float` values are the exact rationals the code computes; rounding to the
  binary format is not modelled.
-/

namespace ArduinoDHT

/-- Values of C++ type `float`, taken as exact rationals. -/
abbrev float := ℚ

/-- Operations on the data line, in the order performed. -/
inductive Event where
  | open_collector
  | output
  | input
  | delay (ms : Nat)
  | delayMicroseconds (us : Nat)
  | sample (level : Bool)
  | pulse (width : Int)
  deriving DecidableEq, Repr

/-- The data pin `GPIO<DATA_PIN> m_data` and the line behind it. -/
structure GPIO where
  /-- Level seen by the k-th sampling of the pin (`true` is high). -/
  level : Nat → Bool
  /-- Value returned by the k-th call of `pulse()`. -/
  width : Nat → Int
  /-- Number of samplings done so far. -/
  samples : Nat
  /-- Number of calls of `pulse()` done so far. -/
  pulses : Nat
  /-- Whether the pin drives the line (output mode). -/
  driving : Bool
  /-- Operations performed so far, oldest first. -/
  log : List Event

namespace GPIO

/-- A line on which nothing has been done yet. -/
def fresh (level : Nat → Bool) (width : Nat → Int) : GPIO :=
  ⟨level, width, 0, 0, false, []⟩

/-- Method `m_data.open_collector()`. -/
def open_collector (g : GPIO) : GPIO :=
  { g with log := g.log ++ [Event.open_collector] }

/-- Method `m_data.output()`. -/
def output (g : GPIO) : GPIO :=
  { g with driving := true, log := g.log ++ [Event.output] }

/-- Method `m_data.input()`. -/
def input (g : GPIO) : GPIO :=
  { g with driving := false, log := g.log ++ [Event.input] }

/-- Conversion `m_data` to `bool`: sample the pin once. -/
def read (g : GPIO) : Bool × GPIO :=
  (g.level g.samples,
   { g with samples := g.samples + 1, log := g.log ++ [Event.sample (g.level g.samples)] })

/-- Method `m_data.pulse()`: measure the width of the next pulse. -/
def pulse (g : GPIO) : Int × GPIO :=
  (g.width g.pulses,
   { g with pulses := g.pulses + 1, log := g.log ++ [Event.pulse (g.width g.pulses)] })

end GPIO

/-- Arduino `delay(ms)`. -/
def delay (ms : Nat) (g : GPIO) : GPIO :=
  { g with log := g.log ++ [Event.delay ms] }

/-- Arduino `delayMicroseconds(us)`. -/
def delayMicroseconds (us : Nat) (g : GPIO) : GPIO :=
  { g with log := g.log ++ [Event.delayMicroseconds us] }

/-- Start signal pulse width in milliseconds. -/
def START_SIGNAL : Nat := 18

/-- Pullup delay in microseconds. -/
def PULLUP : Nat := 4

/-- Pulse threshold in microseconds. -/
def THRESHOLD : Int := 60

/-- Signed value of an `int` held as a bit pattern of `intBits` bits. -/
def intValue (intBits : Nat) (bits : Nat) : Int :=
  if bits % 2 ^ intBits < 2 ^ (intBits - 1) then ((bits % 2 ^ intBits : Nat) : Int)
  else ((bits % 2 ^ intBits : Nat) : Int) - ((2 ^ intBits : Nat) : Int)

/-- Left shift `x << n` in `int`, as a bit pattern of `intBits` bits. -/
def intShl (intBits : Nat) (x n : Nat) : Nat :=
  (x <<< n) % 2 ^ intBits

/-- The decoder object: the pin and the latest readings. -/
structure DHT where
  m_data : GPIO
  m_humidity : float
  m_temperature : float

/-- Constructor `DHT()` on the given line. -/
def DHT.new (line : GPIO) : DHT :=
  ⟨line.open_collector, 0, 0⟩

/-- Accessor `humidity()`. -/
def DHT.humidity (self : DHT) : float := self.m_humidity

/-- Accessor `temperature()`. -/
def DHT.temperature (self : DHT) : float := self.m_temperature

/-- Device type number of class `DHT11`. -/
def DHT11 : Nat := 11

/-- Device type number of class `DHT21`. -/
def DHT21 : Nat := 21

/-- Device type number of class `DHT22`. -/
def DHT22 : Nat := 22

/-- The polling loop `do { delayMicroseconds(PULLUP); } while (m_data && --retry);`
entered with the given value of `retry`; gives the final `retry`. The loop is
only entered with `retry = 16`, so the case `0` is never reached. -/
def awaitLow : Nat → GPIO → Nat × GPIO
  | 0, g => (0, g)
  | retry + 1, g =>
    let s := (delayMicroseconds PULLUP g).read
    if s.1 then
      if retry = 0 then (0, s.2) else awaitLow retry s.2
    else (retry + 1, s.2)

/-- Lines 81 to 88: start signal, polling and acknowledgment pulse. The
boolean is `false` when `read` returns `-2` there. -/
def respond (g : GPIO) : Bool × GPIO :=
  let r := awaitLow 16 (delay START_SIGNAL g.output).input
  if r.1 = 0 then (false, r.2)
  else
    let p := r.2.pulse
    if p.1 < THRESHOLD then (false, p.2) else (true, p.2)

/-- Classification of one data pulse: `uint8_t width = m_data.pulse();` and
then `(width > THRESHOLD)`. -/
def bitOf (pulse : Int) : Nat :=
  if pulse % 256 > THRESHOLD then 1 else 0

/-- The inner loop `for (j = 0; j < 8; j++)` with `n` rounds left. -/
def readBits : Nat → Nat → GPIO → Nat × GPIO
  | 0, v, g => (v, g)
  | n + 1, v, g =>
    let p := g.pulse
    readBits n (((v <<< 1) ||| bitOf p.1) % 256) p.2

/-- State of the outer loop: checksum, bytes stored in `d` so far, line. -/
structure Capture where
  chsum : Nat
  d : List Nat
  line : GPIO

/-- The outer loop `for (i = 0; i < 5; i++)` with `n` rounds left. -/
def readBytes : Nat → Nat → Capture → Capture
  | 0, _, c => c
  | n + 1, i, c =>
    let b := readBits 8 0 c.line
    readBytes n (i + 1)
      ⟨if i < 4 then (c.chsum + b.1) % 256 else c.chsum, c.d ++ [b.1], b.2⟩

/-- Lines 92 to 102: capture of the five bytes. -/
def capture (g : GPIO) : Capture :=
  readBytes 5 0 ⟨0, [], g⟩

/-- Element `d[i]` of the captured array. -/
def byte (d : List Nat) (i : Nat) : Nat := d.getD i 0

/-- Lines 108 to 116: conversion of the data bytes to humidity and temperature. -/
def convert (intBits DEVICE : Nat) (d : List Nat) : float × float :=
  if DEVICE = 11 then
    ((byte d 0 : ℚ), (byte d 2 : ℚ))
  else
    let humidity : ℚ := (intValue intBits (intShl intBits (byte d 0) 8 ||| byte d 1) : ℚ) / 10
    let temperature : ℚ :=
      (intValue intBits (intShl intBits (byte d 2 &&& 0x7f) 8 ||| byte d 3) : ℚ) / 10
    (humidity, if byte d 2 &&& 0x80 ≠ 0 then temperature * (-1) else temperature)

/-- What a call of `read` leaves: the returned value, the object, and the two
reference arguments. -/
structure Outcome where
  ret : Int
  self : DHT
  humidity : float
  temperature : float

/-- Member function `int read(float& humidity, float& temperature)`. -/
def read (intBits DEVICE : Nat) (self : DHT) (humidity temperature : float) : Outcome :=
  let r := respond self.m_data
  if r.1 = false then ⟨-2, { self with m_data := r.2 }, humidity, temperature⟩
  else
    let c := capture r.2
    if c.chsum ≠ byte c.d 4 then ⟨-1, { self with m_data := c.line }, humidity, temperature⟩
    else
      let v := convert intBits DEVICE c.d
      let res : Int :=
        (if v.1 ≠ self.m_humidity then 1 else 0) + (if v.2 ≠ self.m_temperature then 1 else 0)
      if res > 0 then ⟨res, ⟨c.line, v.1, v.2⟩, v.1, v.2⟩
      else ⟨res, { self with m_data := c.line }, v.1, v.2⟩

/-- Line whose samplings follow `levels` (high once exhausted) and whose pulse
measurements follow `widths` (0 once exhausted). -/
def lineOf (levels : List Bool) (widths : List Int) : GPIO :=
  GPIO.fresh (fun k => levels.getD k true) (fun k => widths.getD k 0)

/-- Pulse widths sending one byte, most significant bit first: 70 for a one
and 27 for a zero. -/
def pulsesOfByte (b : Nat) : List Int :=
  (List.range 8).map (fun j => if b.testBit (7 - j) then 70 else 27)

/-- Line of a responding sensor: low at the first sampling, an acknowledgment
pulse of 80, then the five given bytes. -/
def sensorLine (d0 d1 d2 d3 d4 : Nat) : GPIO :=
  lineOf [false]
    (80 :: (pulsesOfByte d0 ++ pulsesOfByte d1 ++ pulsesOfByte d2 ++ pulsesOfByte d3
      ++ pulsesOfByte d4))

/-- Whether the handshake of a read started on line `g` succeeds. -/
def handshake (g : GPIO) : Bool := (respond g).1

/-- The five bytes a read started on line `g` captures after its handshake. -/
def frame (g : GPIO) : List Nat := (capture (respond g).2).d

/-- The line as a read started on `g` leaves it when it gets past the handshake. -/
def lineAfter (g : GPIO) : GPIO := (capture (respond g).2).line

/-- Line of a sensor answering two reads in a row with the same five bytes:
low at the first sampling of each read, and each time an acknowledgment pulse
of 80 followed by the bytes. -/
def steadyLine (d0 d1 d2 d3 d4 : Nat) : GPIO :=
  lineOf [false, false]
    (80 :: (pulsesOfByte d0 ++ pulsesOfByte d1 ++ pulsesOfByte d2 ++ pulsesOfByte d3
      ++ pulsesOfByte d4)
     ++ 80 :: (pulsesOfByte d0 ++ pulsesOfByte d1 ++ pulsesOfByte d2 ++ pulsesOfByte d3
      ++ pulsesOfByte d4))

/-- What `n` rounds of the polling loop that all see the line high add to the log. -/
def highPolls : Nat → List Event
  | 0 => []
  | n + 1 => Event.delayMicroseconds PULLUP :: Event.sample true :: highPolls n

/-- The line when `read` enters its polling loop: driven low for the start
signal, then released. -/
def released (g : GPIO) : GPIO := (delay START_SIGNAL g.output).input

/-- The log entries of `n` successive pulse measurements, the first of which
is measurement number `start` of the line. -/
def pulseEvents (width : Nat → Int) : Nat → Nat → List Event
  | _, 0 => []
  | start, n + 1 => Event.pulse (width start) :: pulseEvents width (start + 1) n

/-- Classification of the k-th data pulse (k = 0 for the first) of a read
started on line `g`: the pulse measured first is the acknowledgment pulse. -/
def dataBit (g : GPIO) (k : Nat) : Nat := bitOf (g.width (g.pulses + 1 + k))

/-- A call of `humidity()` as a step on the object: the value returned and
the object afterwards (the body is `return (m_humidity);`, no assignment). -/
def DHT.callHumidity (self : DHT) : float × DHT := (self.m_humidity, self)

/-- A call of `temperature()` as a step on the object: the value returned and
the object afterwards (the body is `return (m_temperature);`, no assignment). -/
def DHT.callTemperature (self : DHT) : float × DHT := (self.m_temperature, self)

/-- Two frames agree on byte0, byte1 and byte3, and either agree on byte2 or
have byte3 = 0 and both byte2 in {0x00, 0x80} (temperature zero with either
sign bit). -/
def agreeUpToSignedZero (d e : List Nat) : Prop :=
  byte d 0 = byte e 0 ∧ byte d 1 = byte e 1 ∧ byte d 3 = byte e 3
    ∧ (byte d 2 = byte e 2
        ∨ (byte d 3 = 0 ∧ (byte d 2 = 0x00 ∨ byte d 2 = 0x80)
            ∧ (byte e 2 = 0x00 ∨ byte e 2 = 0x80)))

/-- Line of a sensor answering two reads in a row, the first with the bytes
`d0 .. d4` and the second with `e0 .. e4`. -/
def twoFrameLine (d0 d1 d2 d3 d4 e0 e1 e2 e3 e4 : Nat) : GPIO :=
  lineOf [false, false]
    (80 :: (pulsesOfByte d0 ++ pulsesOfByte d1 ++ pulsesOfByte d2 ++ pulsesOfByte d3
      ++ pulsesOfByte d4)
     ++ 80 :: (pulsesOfByte e0 ++ pulsesOfByte e1 ++ pulsesOfByte e2 ++ pulsesOfByte e3
      ++ pulsesOfByte e4))

/-- Whether an event switches the direction of the pin. -/
def Event.switches : Event → Bool
  | Event.output => true
  | Event.input => true
  | _ => false

/-! ## The three exits of `read` -/

theorem read_of_handshake_failed (intBits DEVICE : Nat) (self : DHT) (hu te : float)
    (hs : handshake self.m_data = false) :
    read intBits DEVICE self hu te
      = ⟨-2, { self with m_data := (respond self.m_data).2 }, hu, te⟩ := by
  simp only [handshake] at hs
  simp [read, hs]

theorem capture_chsum (g : GPIO) :
    (capture g).chsum
      = (byte (capture g).d 0 + byte (capture g).d 1 + byte (capture g).d 2
          + byte (capture g).d 3) % 256 := by
  simp only [capture, readBytes, byte]
  simp

theorem read_of_checksum_failed (intBits DEVICE : Nat) (self : DHT) (hu te : float)
    (hs : handshake self.m_data = true)
    (hc : (byte (frame self.m_data) 0 + byte (frame self.m_data) 1 + byte (frame self.m_data) 2
            + byte (frame self.m_data) 3) % 256 ≠ byte (frame self.m_data) 4) :
    read intBits DEVICE self hu te
      = ⟨-1, { self with m_data := lineAfter self.m_data }, hu, te⟩ := by
  simp only [handshake] at hs
  simp only [frame] at hc
  rw [← capture_chsum] at hc
  simp [read, hs, hc, lineAfter]

theorem read_of_checksum_ok (intBits DEVICE : Nat) (self : DHT) (hu te : float)
    (hs : handshake self.m_data = true)
    (hc : byte (frame self.m_data) 4
            = (byte (frame self.m_data) 0 + byte (frame self.m_data) 1
                + byte (frame self.m_data) 2 + byte (frame self.m_data) 3) % 256) :
    read intBits DEVICE self hu te
      = (if (convert intBits DEVICE (frame self.m_data)).1 = self.m_humidity
            ∧ (convert intBits DEVICE (frame self.m_data)).2 = self.m_temperature
         then ⟨0, { self with m_data := lineAfter self.m_data },
                (convert intBits DEVICE (frame self.m_data)).1,
                (convert intBits DEVICE (frame self.m_data)).2⟩
         else ⟨(if (convert intBits DEVICE (frame self.m_data)).1 ≠ self.m_humidity then 1 else 0)
                + (if (convert intBits DEVICE (frame self.m_data)).2 ≠ self.m_temperature
                    then 1 else 0),
               ⟨lineAfter self.m_data, (convert intBits DEVICE (frame self.m_data)).1,
                (convert intBits DEVICE (frame self.m_data)).2⟩,
               (convert intBits DEVICE (frame self.m_data)).1,
               (convert intBits DEVICE (frame self.m_data)).2⟩) := by
  simp only [handshake] at hs
  simp only [frame] at hc
  rw [← capture_chsum] at hc
  simp only [read, hs, frame, lineAfter]
  by_cases h1 : (convert intBits DEVICE (capture (respond self.m_data).2).d).1 = self.m_humidity <;>
  by_cases h2 : (convert intBits DEVICE (capture (respond self.m_data).2).d).2
      = self.m_temperature <;>
  simp [h1, h2, hc]

/-! ## Successful reads and checksum errors -/

/-- C1: when the handshake succeeds and the captured frame has
byte4 = (byte0 + byte1 + byte2 + byte3) mod 256, `read` returns the number
(0, 1 or 2) of fields among humidity and temperature whose newly decoded value
differs from the stored one, and afterwards `humidity()` and `temperature()`
return the newly decoded values, whatever the count. -/
theorem read_returns_change_count (intBits DEVICE : Nat) (self : DHT) (hu te : float)
    (hs : handshake self.m_data = true)
    (hc : byte (frame self.m_data) 4
            = (byte (frame self.m_data) 0 + byte (frame self.m_data) 1
                + byte (frame self.m_data) 2 + byte (frame self.m_data) 3) % 256) :
    (read intBits DEVICE self hu te).ret
        = (if (convert intBits DEVICE (frame self.m_data)).1 ≠ self.humidity then 1 else 0)
          + (if (convert intBits DEVICE (frame self.m_data)).2 ≠ self.temperature then 1 else 0)
      ∧ ((read intBits DEVICE self hu te).ret = 0 ∨ (read intBits DEVICE self hu te).ret = 1
          ∨ (read intBits DEVICE self hu te).ret = 2)
      ∧ (read intBits DEVICE self hu te).self.humidity
          = (convert intBits DEVICE (frame self.m_data)).1
      ∧ (read intBits DEVICE self hu te).self.temperature
          = (convert intBits DEVICE (frame self.m_data)).2 := by
  rw [read_of_checksum_ok intBits DEVICE self hu te hs hc]
  simp only [DHT.humidity, DHT.temperature]
  by_cases h1 : (convert intBits DEVICE (frame self.m_data)).1 = self.m_humidity <;>
  by_cases h2 : (convert intBits DEVICE (frame self.m_data)).2 = self.m_temperature <;>
  simp [h1, h2]

/-- Witness of C1: a DHT11 holding (60, 3) reads the frame (60, 0, 25, 0, 85). -/
theorem read_returns_change_count_witness :
    handshake (sensorLine 60 0 25 0 85) = true
      ∧ byte (frame (sensorLine 60 0 25 0 85)) 4
          = (byte (frame (sensorLine 60 0 25 0 85)) 0 + byte (frame (sensorLine 60 0 25 0 85)) 1
              + byte (frame (sensorLine 60 0 25 0 85)) 2
              + byte (frame (sensorLine 60 0 25 0 85)) 3) % 256
      ∧ (read 16 DHT11 ⟨sensorLine 60 0 25 0 85, 60, 3⟩ 0 0).ret = 1
      ∧ (read 16 DHT11 ⟨sensorLine 60 0 25 0 85, 60, 3⟩ 0 0).self.humidity = 60
      ∧ (read 16 DHT11 ⟨sensorLine 60 0 25 0 85, 60, 3⟩ 0 0).self.temperature = 25 := by
  have hs : handshake (sensorLine 60 0 25 0 85) = true := by decide
  have hf : frame (sensorLine 60 0 25 0 85) = [60, 0, 25, 0, 85] := by decide
  have hc : byte (frame (sensorLine 60 0 25 0 85)) 4
          = (byte (frame (sensorLine 60 0 25 0 85)) 0 + byte (frame (sensorLine 60 0 25 0 85)) 1
              + byte (frame (sensorLine 60 0 25 0 85)) 2
              + byte (frame (sensorLine 60 0 25 0 85)) 3) % 256 := by
    rw [hf]; decide
  have h := read_returns_change_count 16 DHT11 ⟨sensorLine 60 0 25 0 85, 60, 3⟩ 0 0 hs hc
  refine ⟨hs, hc, ?_, h.2.2.1.trans ?_, h.2.2.2.trans ?_⟩
  · rw [h.1]
    simp only [hf, DHT.humidity, DHT.temperature, convert, DHT11, byte]
    norm_num
  · simp only [hf, convert, DHT11, byte]
    norm_num
  · simp only [hf, convert, DHT11, byte]
    norm_num

/-- C2: when the handshake succeeds but the captured frame has
(byte0 + byte1 + byte2 + byte3) mod 256 different from byte4, `read` returns -1
and `humidity()` and `temperature()` return what they returned before. -/
theorem read_checksum_error (intBits DEVICE : Nat) (self : DHT) (hu te : float)
    (hs : handshake self.m_data = true)
    (hc : (byte (frame self.m_data) 0 + byte (frame self.m_data) 1 + byte (frame self.m_data) 2
            + byte (frame self.m_data) 3) % 256 ≠ byte (frame self.m_data) 4) :
    (read intBits DEVICE self hu te).ret = -1
      ∧ (read intBits DEVICE self hu te).self.humidity = self.humidity
      ∧ (read intBits DEVICE self hu te).self.temperature = self.temperature := by
  rw [read_of_checksum_failed intBits DEVICE self hu te hs hc]
  exact ⟨rfl, rfl, rfl⟩

/-- Witness of C2: a DHT22 holding (51.4, -26) reads the frame (60, 0, 25, 0, 86). -/
theorem read_checksum_error_witness :
    handshake (sensorLine 60 0 25 0 86) = true
      ∧ (byte (frame (sensorLine 60 0 25 0 86)) 0 + byte (frame (sensorLine 60 0 25 0 86)) 1
            + byte (frame (sensorLine 60 0 25 0 86)) 2
            + byte (frame (sensorLine 60 0 25 0 86)) 3) % 256
          ≠ byte (frame (sensorLine 60 0 25 0 86)) 4
      ∧ (read 16 DHT22 ⟨sensorLine 60 0 25 0 86, 51.4, -26⟩ 0 0).ret = -1
      ∧ (read 16 DHT22 ⟨sensorLine 60 0 25 0 86, 51.4, -26⟩ 0 0).self.humidity = 51.4
      ∧ (read 16 DHT22 ⟨sensorLine 60 0 25 0 86, 51.4, -26⟩ 0 0).self.temperature = -26 :=
  ⟨by decide, by decide,
    read_checksum_error 16 DHT22 ⟨sensorLine 60 0 25 0 86, 51.4, -26⟩ 0 0 (by decide) (by decide)⟩

/-! ## The handshake -/

theorem awaitLow_all_high (n : Nat) :
    ∀ g : GPIO, (∀ k, k < n + 1 → g.level (g.samples + k) = true) →
      awaitLow (n + 1) g
        = (0, { g with samples := g.samples + (n + 1), log := g.log ++ highPolls (n + 1) }) := by
  induction n with
  | zero =>
    intro g h
    have h0 := h 0 (by omega)
    simp only [Nat.add_zero] at h0
    simp [awaitLow, GPIO.read, delayMicroseconds, h0, highPolls]
  | succ n ih =>
    intro g h
    have h0 := h 0 (by omega)
    simp only [Nat.add_zero] at h0
    have hrest : ∀ k, k < n + 1 →
        ((delayMicroseconds PULLUP g).read.2).level ((delayMicroseconds PULLUP g).read.2.samples + k)
          = true := by
      intro k hk
      have := h (k + 1) (by omega)
      simpa [ GPIO.read, delayMicroseconds, Nat.add_assoc, Nat.add_comm 1 k] using this
    rw [awaitLow]
    simp only [ GPIO.read, delayMicroseconds, h0, if_true] at hrest ⊢
    rw [if_neg (by omega), ih _ hrest]
    simp [highPolls, Nat.add_assoc, Nat.add_comm 1 n]
    omega

theorem awaitLow_first_low (n : Nat) :
    ∀ (g : GPIO) (k : Nat), k ≤ n → (∀ j, j < k → g.level (g.samples + j) = true) →
      g.level (g.samples + k) = false →
      awaitLow (n + 1) g
        = (n + 1 - k,
           { g with samples := g.samples + (k + 1),
                    log := g.log ++ highPolls k
                      ++ [Event.delayMicroseconds PULLUP, Event.sample false] }) := by
  induction n with
  | zero =>
    intro g k hk _ hlow
    obtain rfl : k = 0 := by omega
    simp only [Nat.add_zero] at hlow
    simp [awaitLow, GPIO.read, delayMicroseconds, hlow, highPolls]
  | succ n ih =>
    intro g k hk hhigh hlow
    cases k with
    | zero =>
      simp only [Nat.add_zero] at hlow
      simp [awaitLow, GPIO.read, delayMicroseconds, hlow, highPolls]
    | succ k =>
      have h0 := hhigh 0 (by omega)
      simp only [Nat.add_zero] at h0
      have hhigh2 : ∀ j, j < k →
          ((delayMicroseconds PULLUP g).read.2).level
            ((delayMicroseconds PULLUP g).read.2.samples + j) = true := by
        intro j hj
        have := hhigh (j + 1) (by omega)
        simpa [ GPIO.read, delayMicroseconds, Nat.add_assoc, Nat.add_comm 1 j] using this
      have hlow2 : ((delayMicroseconds PULLUP g).read.2).level
            ((delayMicroseconds PULLUP g).read.2.samples + k) = false := by
        simpa [ GPIO.read, delayMicroseconds, Nat.add_assoc, Nat.add_comm 1 k] using hlow
      rw [awaitLow]
      simp only [ GPIO.read, delayMicroseconds, h0, if_true] at hhigh2 hlow2 ⊢
      rw [if_neg (by omega), ih _ k (by omega) hhigh2 hlow2]
      simp [highPolls, Nat.add_assoc, Nat.add_comm 1 k]
      omega

theorem first_low_or_all_high (f : Nat → Bool) (n : Nat) :
    (∀ k, k < n → f k = true) ∨ ∃ k, k < n ∧ (∀ j, j < k → f j = true) ∧ f k = false := by
  induction n with
  | zero => exact Or.inl (fun k hk => absurd hk (Nat.not_lt_zero k))
  | succ n ih =>
    rcases ih with hall | ⟨k, hk, hhigh, hlow⟩
    · cases hn : f n with
      | true =>
        refine Or.inl (fun k hk => ?_)
        rcases Nat.lt_succ_iff_lt_or_eq.mp hk with hlt | rfl
        · exact hall k hlt
        · exact hn
      | false => exact Or.inr ⟨n, Nat.lt_succ_self n, hall, hn⟩
    · exact Or.inr ⟨k, Nat.lt_succ_of_lt hk, hhigh, hlow⟩

theorem respond_all_high (g : GPIO) (h : ∀ k, k < 16 → g.level (g.samples + k) = true) :
    respond g
      = (false, { released g with samples := g.samples + 16,
                                  log := (released g).log ++ highPolls 16 }) := by
  have h2 : ∀ k, k < 15 + 1 → (released g).level ((released g).samples + k) = true := h
  have := awaitLow_all_high 15 (released g) h2
  simp only [respond]
  rw [show (delay START_SIGNAL g.output).input = released g from rfl, this]
  simp [released, GPIO.input, GPIO.output, delay]

theorem respond_first_low (g : GPIO) (k : Nat) (hk : k < 16)
    (hhigh : ∀ j, j < k → g.level (g.samples + j) = true)
    (hlow : g.level (g.samples + k) = false) :
    (respond g).1 = decide (¬ g.width g.pulses < THRESHOLD) := by
  have := awaitLow_first_low 15 (released g) k (by omega) hhigh hlow
  simp only [respond]
  rw [show (delay START_SIGNAL g.output).input = released g from rfl, this]
  have hne : ¬ (15 + 1 - k = 0) := by omega
  simp only [hne, if_false, GPIO.pulse, released, GPIO.input, GPIO.output, delay]
  by_cases hw : g.width g.pulses < THRESHOLD <;> simp [hw]

theorem handshake_eq_false_iff (g : GPIO) :
    handshake g = false ↔
      (∀ k, k < 16 → g.level (g.samples + k) = true)
        ∨ ∃ k, k < 16 ∧ (∀ j, j < k → g.level (g.samples + j) = true)
            ∧ g.level (g.samples + k) = false ∧ g.width g.pulses < 60 := by
  rcases first_low_or_all_high (fun k => g.level (g.samples + k)) 16 with hall | ⟨k, hk, hhigh, hlow⟩
  · simp only [handshake, respond_all_high g hall, true_iff]
    exact Or.inl hall
  · have hk0 : ¬ ∀ k, k < 16 → g.level (g.samples + k) = true := by
      intro hall
      have := hall k hk
      have hlow2 : g.level (g.samples + k) = false := hlow
      rw [hlow2] at this
      exact Bool.noConfusion this
    simp only [handshake, respond_first_low g k hk hhigh hlow, THRESHOLD, decide_eq_false_iff_not,
      not_not]
    constructor
    · intro hw
      exact Or.inr ⟨k, hk, hhigh, hlow, hw⟩
    · rintro (hall | ⟨_, _, _, _, hw⟩)
      · exact absurd hall hk0
      · exact hw

theorem read_ret_cases (intBits DEVICE : Nat) (self : DHT) (hu te : float) :
    (handshake self.m_data = false ∧ (read intBits DEVICE self hu te).ret = -2)
      ∨ (handshake self.m_data = true
          ∧ (byte (frame self.m_data) 0 + byte (frame self.m_data) 1
              + byte (frame self.m_data) 2 + byte (frame self.m_data) 3) % 256
              ≠ byte (frame self.m_data) 4
          ∧ (read intBits DEVICE self hu te).ret = -1)
      ∨ (handshake self.m_data = true
          ∧ byte (frame self.m_data) 4
              = (byte (frame self.m_data) 0 + byte (frame self.m_data) 1
                  + byte (frame self.m_data) 2 + byte (frame self.m_data) 3) % 256
          ∧ ((read intBits DEVICE self hu te).ret = 0 ∨ (read intBits DEVICE self hu te).ret = 1
              ∨ (read intBits DEVICE self hu te).ret = 2)) := by
  cases hs : handshake self.m_data with
  | false =>
    exact Or.inl ⟨rfl, by rw [read_of_handshake_failed intBits DEVICE self hu te hs]⟩
  | true =>
    by_cases hc : byte (frame self.m_data) 4
              = (byte (frame self.m_data) 0 + byte (frame self.m_data) 1
                  + byte (frame self.m_data) 2 + byte (frame self.m_data) 3) % 256
    · refine Or.inr (Or.inr ⟨rfl, hc, ?_⟩)
      rw [read_of_checksum_ok intBits DEVICE self hu te hs hc]
      by_cases h1 : (convert intBits DEVICE (frame self.m_data)).1 = self.m_humidity <;>
      by_cases h2 : (convert intBits DEVICE (frame self.m_data)).2 = self.m_temperature <;>
      simp [h1, h2]
    · have hc2 : (byte (frame self.m_data) 0 + byte (frame self.m_data) 1
              + byte (frame self.m_data) 2 + byte (frame self.m_data) 3) % 256
              ≠ byte (frame self.m_data) 4 := fun h => hc h.symm
      exact Or.inr (Or.inl ⟨rfl, hc2,
        by rw [read_of_checksum_failed intBits DEVICE self hu te hs hc2]⟩)

theorem read_ret_eq_neg_two_iff (intBits DEVICE : Nat) (self : DHT) (hu te : float) :
    (read intBits DEVICE self hu te).ret = -2 ↔ handshake self.m_data = false := by
  rcases read_ret_cases intBits DEVICE self hu te with ⟨hs, hr⟩ | ⟨hs, _, hr⟩ | ⟨hs, _, hr⟩
  · simp [hs, hr]
  · simp [hs, hr]
  · rcases hr with hr | hr | hr <;> simp [hs, hr]

/-- C3: if the line reads high on every one of the 16 handshake polls, `read`
returns -2, samples the line exactly 16 times, measures no pulse at all (the
log gains the start signal and 16 polls, nothing else) and leaves the stored
humidity and temperature unchanged. -/
theorem read_line_never_low (intBits DEVICE : Nat) (self : DHT) (hu te : float)
    (h : ∀ k, k < 16 → self.m_data.level (self.m_data.samples + k) = true) :
    (read intBits DEVICE self hu te).ret = -2
      ∧ (read intBits DEVICE self hu te).self.m_data.samples = self.m_data.samples + 16
      ∧ (read intBits DEVICE self hu te).self.m_data.pulses = self.m_data.pulses
      ∧ (read intBits DEVICE self hu te).self.m_data.log
          = self.m_data.log ++ [Event.output, Event.delay START_SIGNAL, Event.input]
              ++ highPolls 16
      ∧ (read intBits DEVICE self hu te).self.humidity = self.humidity
      ∧ (read intBits DEVICE self hu te).self.temperature = self.temperature := by
  have hs : handshake self.m_data = false := by
    simp only [handshake, respond_all_high self.m_data h]
  rw [read_of_handshake_failed intBits DEVICE self hu te hs, respond_all_high self.m_data h]
  simp [released, GPIO.input, GPIO.output, delay, DHT.humidity, DHT.temperature]

/-- Witness of C3: a DHT22 holding (51.4, -26) on a line that stays high. -/
theorem read_line_never_low_witness :
    (∀ k, k < 16 → (lineOf [] []).level ((lineOf [] []).samples + k) = true)
      ∧ (read 16 DHT22 ⟨lineOf [] [], 51.4, -26⟩ 0 0).ret = -2
      ∧ (read 16 DHT22 ⟨lineOf [] [], 51.4, -26⟩ 0 0).self.m_data.samples = 16
      ∧ (read 16 DHT22 ⟨lineOf [] [], 51.4, -26⟩ 0 0).self.m_data.pulses = 0 := by
  have hl : ∀ k, k < 16 → (lineOf [] []).level ((lineOf [] []).samples + k) = true := by
    intro k _
    simp [lineOf, GPIO.fresh]
  have h := read_line_never_low 16 DHT22 ⟨lineOf [] [], 51.4, -26⟩ 0 0 hl
  exact ⟨hl, h.1, h.2.1, h.2.2.1⟩

/-- C4: `read` returns -2 if and only if either the line reads high on each of
the first 16 polls, or it first reads low on poll number k + 1 with k < 16 and
the acknowledgment pulse measured right after is strictly less than 60. When
the line first reads low on the 16th poll, an acknowledgment pulse of exactly 60
is not a handshake failure, while one of 59 or of 0 is. -/
theorem read_handshake_error_iff (intBits DEVICE : Nat) (self : DHT) (hu te : float) :
    ((read intBits DEVICE self hu te).ret = -2 ↔
        (∀ k, k < 16 → self.m_data.level (self.m_data.samples + k) = true)
          ∨ ∃ k, k < 16 ∧ (∀ j, j < k → self.m_data.level (self.m_data.samples + j) = true)
              ∧ self.m_data.level (self.m_data.samples + k) = false
              ∧ self.m_data.width self.m_data.pulses < 60)
      ∧ ((∀ j, j < 15 → self.m_data.level (self.m_data.samples + j) = true) →
          self.m_data.level (self.m_data.samples + 15) = false →
            (self.m_data.width self.m_data.pulses = 60 →
                (read intBits DEVICE self hu te).ret ≠ -2)
              ∧ (self.m_data.width self.m_data.pulses = 59 →
                  (read intBits DEVICE self hu te).ret = -2)
              ∧ (self.m_data.width self.m_data.pulses = 0 →
                  (read intBits DEVICE self hu te).ret = -2)) := by
  refine ⟨(read_ret_eq_neg_two_iff intBits DEVICE self hu te).trans
    (handshake_eq_false_iff self.m_data), ?_⟩
  intro hhigh hlow
  have hr := respond_first_low self.m_data 15 (by omega) hhigh hlow
  refine ⟨fun hw => ?_, fun hw => ?_, fun hw => ?_⟩
  · rw [Ne, read_ret_eq_neg_two_iff, handshake, hr, hw]
    decide
  · rw [read_ret_eq_neg_two_iff, handshake, hr, hw]
    decide
  · rw [read_ret_eq_neg_two_iff, handshake, hr, hw]
    decide

/-- Witness of C4: the line goes low on the 16th poll; acknowledgment pulses of
60, 59 and 0. -/
theorem read_handshake_error_iff_witness :
    (read 16 DHT11 (DHT.new (lineOf (List.replicate 15 true ++ [false]) [60])) 0 0).ret ≠ -2
      ∧ (read 16 DHT11 (DHT.new (lineOf (List.replicate 15 true ++ [false]) [59])) 0 0).ret = -2
      ∧ (read 16 DHT11 (DHT.new (lineOf (List.replicate 15 true ++ [false]) [0])) 0 0).ret = -2 :=
  ⟨((read_handshake_error_iff 16 DHT11
        (DHT.new (lineOf (List.replicate 15 true ++ [false]) [60])) 0 0).2
      (by decide) (by decide)).1 (by decide),
   ((read_handshake_error_iff 16 DHT11
        (DHT.new (lineOf (List.replicate 15 true ++ [false]) [59])) 0 0).2
      (by decide) (by decide)).2.1 (by decide),
   ((read_handshake_error_iff 16 DHT11
        (DHT.new (lineOf (List.replicate 15 true ++ [false]) [0])) 0 0).2
      (by decide) (by decide)).2.2 (by decide)⟩

/-! ## Classification of data pulses -/

theorem bitOf_of_uint8 (w : Int) (h0 : 0 ≤ w) (h1 : w < 256) :
    bitOf w = if w > 60 then 1 else 0 := by
  simp only [bitOf, THRESHOLD, Int.emod_eq_of_lt h0 h1]

/-- C5, evaluated: a data pulse of 300 is narrowed to 44 and decodes to bit 0,
as is one of 316, and 317 decodes to bit 1, while 59, 60 and 61 decode to
0, 0 and 1. A sensor whose first data pulse lasts 300 and whose
other 39 pulses last 27 is captured as the frame (0, 0, 0, 0, 0), which passes
the checksum. -/
theorem bitOf_wide_pulse :
    bitOf 59 = 0 ∧ bitOf 60 = 0 ∧ bitOf 61 = 1
      ∧ (300 : Int) > THRESHOLD ∧ bitOf 300 = 0
      ∧ (316 : Int) > THRESHOLD ∧ bitOf 316 = 0 ∧ bitOf 317 = 1
      ∧ frame (lineOf [false] (80 :: 300 :: List.replicate 39 27)) = [0, 0, 0, 0, 0]
      ∧ (read 16 DHT11 (DHT.new (lineOf [false] (80 :: 300 :: List.replicate 39 27))) 0 0).ret
          = 0 := by
  decide

/-! ## Conversion of the data bytes -/

theorem two_pow_ge (w : Nat) (hw : 16 ≤ w) : 65536 ≤ 2 ^ w ∧ 32768 ≤ 2 ^ (w - 1) := by
  constructor
  · calc 65536 = 2 ^ 16 := by norm_num
      _ ≤ 2 ^ w := Nat.pow_le_pow_right (by norm_num) hw
  · calc 32768 = 2 ^ 15 := by norm_num
      _ ≤ 2 ^ (w - 1) := Nat.pow_le_pow_right (by norm_num) (by omega)

theorem intValue_small (w x : Nat) (hw : 16 ≤ w) (hx : x < 32768) :
    intValue w x = (x : Int) := by
  obtain ⟨h1, h2⟩ := two_pow_ge w hw
  have hmod : x % 2 ^ w = x := Nat.mod_eq_of_lt (by omega)
  simp only [intValue, hmod]
  rw [if_pos (by omega)]

theorem intShl_small (w x n : Nat) (hw : 16 ≤ w) (hx : x <<< n < 65536) :
    intShl w x n = x <<< n := by
  obtain ⟨h1, _⟩ := two_pow_ge w hw
  exact Nat.mod_eq_of_lt (by omega)

theorem convert_v11 (intBits : Nat) (d : List Nat) :
    convert intBits DHT11 d = ((byte d 0 : ℚ), (byte d 2 : ℚ)) := by
  simp [convert, DHT11]

/-- C6: for the DHT11 and every frame that passes handshake and checksum, the
humidity stored and returned is the integer value of byte0 and the temperature
that of byte2; the frame (60, 0, 25, 0, 85) read on a freshly constructed
decoder gives humidity 60, temperature 25 and the count 2. -/
theorem read_v11_decodes_bytes (intBits : Nat) (self : DHT) (line : GPIO) (hu te : float) :
    (handshake self.m_data = true →
      byte (frame self.m_data) 4
          = (byte (frame self.m_data) 0 + byte (frame self.m_data) 1
              + byte (frame self.m_data) 2 + byte (frame self.m_data) 3) % 256 →
      (read intBits DHT11 self hu te).self.humidity = (byte (frame self.m_data) 0 : ℚ)
        ∧ (read intBits DHT11 self hu te).self.temperature = (byte (frame self.m_data) 2 : ℚ)
        ∧ (read intBits DHT11 self hu te).humidity = (byte (frame self.m_data) 0 : ℚ)
        ∧ (read intBits DHT11 self hu te).temperature = (byte (frame self.m_data) 2 : ℚ))
      ∧ (handshake (DHT.new line).m_data = true →
          frame (DHT.new line).m_data = [60, 0, 25, 0, 85] →
          (read intBits DHT11 (DHT.new line) hu te).ret = 2
            ∧ (read intBits DHT11 (DHT.new line) hu te).self.humidity = 60
            ∧ (read intBits DHT11 (DHT.new line) hu te).self.temperature = 25) := by
  constructor
  · intro hs hc
    rw [read_of_checksum_ok intBits DHT11 self hu te hs hc, convert_v11]
    simp only [DHT.humidity, DHT.temperature]
    split
    · rename_i h
      exact ⟨h.1.symm, h.2.symm, rfl, rfl⟩
    · exact ⟨rfl, rfl, rfl, rfl⟩
  · intro hs hf
    have hc : byte (frame (DHT.new line).m_data) 4
          = (byte (frame (DHT.new line).m_data) 0 + byte (frame (DHT.new line).m_data) 1
              + byte (frame (DHT.new line).m_data) 2
              + byte (frame (DHT.new line).m_data) 3) % 256 := by
      rw [hf]; decide
    rw [read_of_checksum_ok intBits DHT11 (DHT.new line) hu te hs hc, convert_v11, hf]
    simp only [DHT.humidity, DHT.temperature, DHT.new, byte]
    norm_num

/-- Witness of C6: a fresh DHT11 on a sensor sending (60, 0, 25, 0, 85). -/
theorem read_v11_decodes_bytes_witness :
    handshake (DHT.new (sensorLine 60 0 25 0 85)).m_data = true
      ∧ frame (DHT.new (sensorLine 60 0 25 0 85)).m_data = [60, 0, 25, 0, 85]
      ∧ (read 16 DHT11 (DHT.new (sensorLine 60 0 25 0 85)) 0 0).ret = 2
      ∧ (read 16 DHT11 (DHT.new (sensorLine 60 0 25 0 85)) 0 0).self.humidity = 60
      ∧ (read 16 DHT11 (DHT.new (sensorLine 60 0 25 0 85)) 0 0).self.temperature = 25 :=
  ⟨by decide, by decide,
    (read_v11_decodes_bytes 16 (DHT.new (sensorLine 60 0 25 0 85)) (sensorLine 60 0 25 0 85) 0 0).2
      (by decide) (by decide)⟩

theorem convert_v22_example (intBits : Nat) (hw : 16 ≤ intBits) :
    convert intBits DHT22 [0x02, 0x0A, 0x81, 0x04, 0x91] = (52.2, -26) := by
  have e1 : intShl intBits 0x02 8 = 512 := by
    rw [intShl_small intBits 0x02 8 hw (by decide)]; decide
  have e2 : intShl intBits (0x81 &&& 0x7f) 8 = 256 := by
    rw [intShl_small intBits (0x81 &&& 0x7f) 8 hw (by decide)]; decide
  have e3 : intValue intBits (512 ||| 0x0A) = 522 := by
    rw [intValue_small intBits (512 ||| 0x0A) hw (by decide)]; decide
  have e4 : intValue intBits (256 ||| 0x04) = 260 := by
    rw [intValue_small intBits (256 ||| 0x04) hw (by decide)]; decide
  have e5 : (0x81 &&& 0x80 : Nat) ≠ 0 := by decide
  simp only [convert, DHT22, byte, List.getD_cons_zero, List.getD_cons_succ, e1, e2, e3, e4]
  rw [if_neg (by decide), if_pos e5]
  norm_num

/-- C7, as the code behaves: for the DHT22 with an `int` of at least 16 bits,
reading the frame with data bytes (0x02, 0x0A, 0x81, 0x04) and checksum byte
0x91 succeeds and yields humidity = 52.2 and temperature = -26.0. -/
theorem read_v22_negative_temperature (intBits : Nat) (self : DHT) (hu te : float)
    (hw : 16 ≤ intBits)
    (hs : handshake self.m_data = true)
    (hf : frame self.m_data = [0x02, 0x0A, 0x81, 0x04, 0x91]) :
    0 ≤ (read intBits DHT22 self hu te).ret
      ∧ (read intBits DHT22 self hu te).self.humidity = 52.2
      ∧ (read intBits DHT22 self hu te).self.temperature = -26
      ∧ (read intBits DHT22 self hu te).humidity = 52.2
      ∧ (read intBits DHT22 self hu te).temperature = -26 := by
  have hc : byte (frame self.m_data) 4
        = (byte (frame self.m_data) 0 + byte (frame self.m_data) 1
            + byte (frame self.m_data) 2 + byte (frame self.m_data) 3) % 256 := by
    rw [hf]; decide
  rw [read_of_checksum_ok intBits DHT22 self hu te hs hc, hf, convert_v22_example intBits hw]
  simp only [DHT.humidity, DHT.temperature]
  split
  · rename_i h
    exact ⟨le_refl _, h.1.symm, h.2.symm, rfl, rfl⟩
  · refine ⟨?_, rfl, rfl, rfl, rfl⟩
    split <;> split <;> norm_num

/-- Witness of C7 as amended: a fresh DHT22 on a 16-bit board. -/
theorem read_v22_negative_temperature_witness :
    16 ≤ 16 ∧ handshake (DHT.new (sensorLine 0x02 0x0A 0x81 0x04 0x91)).m_data = true
      ∧ frame (DHT.new (sensorLine 0x02 0x0A 0x81 0x04 0x91)).m_data
          = [0x02, 0x0A, 0x81, 0x04, 0x91]
      ∧ (read 16 DHT22 (DHT.new (sensorLine 0x02 0x0A 0x81 0x04 0x91)) 0 0).self.humidity = 52.2
      ∧ (read 16 DHT22 (DHT.new (sensorLine 0x02 0x0A 0x81 0x04 0x91)) 0 0).self.temperature
          = -26 :=
  have h := read_v22_negative_temperature 16 (DHT.new (sensorLine 0x02 0x0A 0x81 0x04 0x91)) 0 0
    (by decide) (by decide) (by decide)
  ⟨by decide, by decide, by decide, h.2.1, h.2.2.1⟩

/-- C7 as stated fails: a fresh DHT22 (with a 16-bit or a 32-bit `int`) reading
the frame (0x02, 0x0A, 0x81, 0x04, 0x91) ends with humidity 52.2, which is
not 51.4; the temperature is -26.0. -/
theorem read_v22_humidity_not_51_4 :
    handshake (DHT.new (sensorLine 0x02 0x0A 0x81 0x04 0x91)).m_data = true
      ∧ frame (DHT.new (sensorLine 0x02 0x0A 0x81 0x04 0x91)).m_data
          = [0x02, 0x0A, 0x81, 0x04, 0x91]
      ∧ (read 16 DHT22 (DHT.new (sensorLine 0x02 0x0A 0x81 0x04 0x91)) 0 0).self.humidity ≠ 51.4
      ∧ (read 32 DHT22 (DHT.new (sensorLine 0x02 0x0A 0x81 0x04 0x91)) 0 0).self.humidity ≠ 51.4
      ∧ (read 16 DHT22 (DHT.new (sensorLine 0x02 0x0A 0x81 0x04 0x91)) 0 0).self.temperature
          = -26 := by
  have hs : handshake (DHT.new (sensorLine 0x02 0x0A 0x81 0x04 0x91)).m_data = true := by decide
  have hf : frame (DHT.new (sensorLine 0x02 0x0A 0x81 0x04 0x91)).m_data
      = [0x02, 0x0A, 0x81, 0x04, 0x91] := by decide
  have hc : byte (frame (DHT.new (sensorLine 0x02 0x0A 0x81 0x04 0x91)).m_data) 4
        = (byte (frame (DHT.new (sensorLine 0x02 0x0A 0x81 0x04 0x91)).m_data) 0
            + byte (frame (DHT.new (sensorLine 0x02 0x0A 0x81 0x04 0x91)).m_data) 1
            + byte (frame (DHT.new (sensorLine 0x02 0x0A 0x81 0x04 0x91)).m_data) 2
            + byte (frame (DHT.new (sensorLine 0x02 0x0A 0x81 0x04 0x91)).m_data) 3) % 256 := by
    rw [hf]; decide
  have key : ∀ w, 16 ≤ w →
      (read w DHT22 (DHT.new (sensorLine 0x02 0x0A 0x81 0x04 0x91)) 0 0).self.m_humidity = 52.2
        ∧ (read w DHT22 (DHT.new (sensorLine 0x02 0x0A 0x81 0x04 0x91)) 0 0).self.m_temperature
            = -26 := by
    intro w hw
    rw [read_of_checksum_ok w DHT22 _ 0 0 hs hc, hf, convert_v22_example w hw]
    split
    · rename_i h
      exact ⟨h.1.symm, h.2.symm⟩
    · exact ⟨rfl, rfl⟩
  refine ⟨hs, hf, ?_, ?_, (key 16 (by decide)).2⟩
  · simp only [DHT.humidity, (key 16 (by decide)).1]
    norm_num
  · simp only [DHT.humidity, (key 32 (by decide)).1]
    norm_num

theorem readBits_lt (n : Nat) : ∀ (v : Nat) (g : GPIO), v < 256 → (readBits n v g).1 < 256 := by
  induction n with
  | zero => intro v g hv; exact hv
  | succ n ih =>
    intro v g _
    rw [readBits]
    exact ih _ _ (Nat.mod_lt _ (by norm_num))

theorem byte_capture_lt (g : GPIO) (i : Nat) : byte (capture g).d i < 256 := by
  have h := fun g => readBits_lt 8 0 g (by norm_num)
  simp only [capture, readBytes, byte, List.nil_append, List.cons_append]
  match i with
  | 0 => exact h _
  | 1 => exact h _
  | 2 => exact h _
  | 3 => exact h _
  | 4 => exact h _
  | (k + 5) => simp

theorem shl8_or (a b : Nat) (hb : b < 256) : (a <<< 8) ||| b = 256 * a + b := by
  rw [Nat.shiftLeft_eq, Nat.mul_comm]
  exact (Nat.mul_add_lt_is_or (show b < 2 ^ 8 from hb) a).symm

set_option maxRecDepth 100000 in
theorem and_0x7f (b : Nat) (hb : b < 256) : b &&& 0x7f = b % 128 := by
  have h : ∀ x : Fin 256, (x : Nat) &&& 0x7f = (x : Nat) % 128 := by decide
  exact h ⟨b, hb⟩

set_option maxRecDepth 100000 in
theorem and_0x80 (b : Nat) (hb : b < 256) : b &&& 0x80 ≠ 0 ↔ 128 ≤ b := by
  have h : ∀ x : Fin 256, ((x : Nat) &&& 0x80 ≠ 0 ↔ 128 ≤ (x : Nat)) := by decide
  exact h ⟨b, hb⟩

theorem intValue_of_lt (w x : Nat) (hw : 1 ≤ w) (hx : x < 2 ^ (w - 1)) :
    intValue w x = (x : Int) := by
  have hle : 2 ^ (w - 1) ≤ 2 ^ w := Nat.pow_le_pow_right (by norm_num) (by omega)
  have hmod : x % 2 ^ w = x := Nat.mod_eq_of_lt (by omega)
  simp only [intValue, hmod]
  rw [if_pos hx]

/-- On a board whose `int` has at least 17 bits, the humidity of a DHT21 or
DHT22 frame is (256 * byte0 + byte1) / 10 for all byte values. -/
theorem convert_humidity_wide (intBits DEVICE : Nat) (d : List Nat) (hw : 17 ≤ intBits)
    (hD : DEVICE ≠ 11) (h0 : byte d 0 < 256) (h1 : byte d 1 < 256) :
    (convert intBits DEVICE d).1 = ((256 * byte d 0 + byte d 1 : Nat) : ℚ) / 10 := by
  have hp : 65536 ≤ 2 ^ (intBits - 1) := by
    calc 65536 = 2 ^ 16 := by norm_num
      _ ≤ 2 ^ (intBits - 1) := Nat.pow_le_pow_right (by norm_num) (by omega)
  have hle : 2 ^ (intBits - 1) ≤ 2 ^ intBits := Nat.pow_le_pow_right (by norm_num) (by omega)
  have hs : intShl intBits (byte d 0) 8 = byte d 0 <<< 8 := by
    refine Nat.mod_eq_of_lt ?_
    rw [Nat.shiftLeft_eq]
    omega
  simp only [convert, if_neg hD, hs, shl8_or _ _ h1]
  rw [intValue_of_lt intBits _ (by omega) (by omega), Int.cast_natCast]

/-- On every board (`int` of at least 16 bits), the temperature of a DHT21 or
DHT22 frame has magnitude (256 * (byte2 mod 128) + byte3) / 10 and is negated
exactly when byte2 is at least 128. -/
theorem convert_temperature (intBits DEVICE : Nat) (d : List Nat) (hw : 16 ≤ intBits)
    (hD : DEVICE ≠ 11) (h2 : byte d 2 < 256) (h3 : byte d 3 < 256) :
    (convert intBits DEVICE d).2
      = if 128 ≤ byte d 2 then -(((256 * (byte d 2 % 128) + byte d 3 : Nat) : ℚ) / 10)
        else ((256 * (byte d 2 % 128) + byte d 3 : Nat) : ℚ) / 10 := by
  obtain ⟨hp1, hp2⟩ := two_pow_ge intBits hw
  have hm : byte d 2 % 128 < 128 := Nat.mod_lt _ (by norm_num)
  have hs : intShl intBits (byte d 2 % 128) 8 = (byte d 2 % 128) <<< 8 := by
    refine Nat.mod_eq_of_lt ?_
    rw [Nat.shiftLeft_eq]
    omega
  simp only [convert, if_neg hD, and_0x7f _ h2, hs, shl8_or _ _ h3]
  rw [intValue_of_lt intBits _ (by omega) (by omega), Int.cast_natCast]
  by_cases h : 128 ≤ byte d 2
  · rw [if_pos ((and_0x80 _ h2).mpr h), if_pos h]
    ring
  · rw [if_neg (fun hh => h ((and_0x80 _ h2).mp hh)), if_neg h]

theorem convert_16_overflow :
    convert 16 DHT22 [0x80, 0, 0, 0, 0x80] = (-3276.8, 0) := by
  have e1 : intValue 16 (intShl 16 0x80 8 ||| 0) = -32768 := by decide
  have e2 : intValue 16 (intShl 16 (0 &&& 0x7f) 8 ||| 0) = 0 := by decide
  simp only [convert, DHT22, byte, List.getD_cons_zero, List.getD_cons_succ, e1, e2]
  rw [if_neg (by decide)]
  norm_num

/-- C8, evaluated on a board with a 16-bit `int`: a fresh DHT22 reading the frame
(0x80, 0, 0, 0, 0x80), which passes handshake and checksum, stores the humidity
-3276.8, a negative value, where (256 * 128 + 0) / 10 is 3276.8; only the
humidity differs from the stored (0, 0), so the count is 1. -/
theorem read_v22_humidity_negative_on_16_bit :
    handshake (DHT.new (sensorLine 0x80 0 0 0 0x80)).m_data = true
      ∧ frame (DHT.new (sensorLine 0x80 0 0 0 0x80)).m_data = [0x80, 0, 0, 0, 0x80]
      ∧ (read 16 DHT22 (DHT.new (sensorLine 0x80 0 0 0 0x80)) 0 0).ret = 1
      ∧ (read 16 DHT22 (DHT.new (sensorLine 0x80 0 0 0 0x80)) 0 0).self.humidity = -3276.8
      ∧ (read 16 DHT22 (DHT.new (sensorLine 0x80 0 0 0 0x80)) 0 0).self.humidity < 0
      ∧ (read 16 DHT22 (DHT.new (sensorLine 0x80 0 0 0 0x80)) 0 0).self.humidity
          ≠ ((256 * 128 + 0 : Nat) : ℚ) / 10 := by
  have hs : handshake (DHT.new (sensorLine 0x80 0 0 0 0x80)).m_data = true := by decide
  have hf : frame (DHT.new (sensorLine 0x80 0 0 0 0x80)).m_data = [0x80, 0, 0, 0, 0x80] := by
    decide
  have hc : byte (frame (DHT.new (sensorLine 0x80 0 0 0 0x80)).m_data) 4
        = (byte (frame (DHT.new (sensorLine 0x80 0 0 0 0x80)).m_data) 0
            + byte (frame (DHT.new (sensorLine 0x80 0 0 0 0x80)).m_data) 1
            + byte (frame (DHT.new (sensorLine 0x80 0 0 0 0x80)).m_data) 2
            + byte (frame (DHT.new (sensorLine 0x80 0 0 0 0x80)).m_data) 3) % 256 := by
    rw [hf]; decide
  have key : read 16 DHT22 (DHT.new (sensorLine 0x80 0 0 0 0x80)) 0 0
      = ⟨1, ⟨lineAfter (DHT.new (sensorLine 0x80 0 0 0 0x80)).m_data, -3276.8, 0⟩,
          -3276.8, 0⟩ := by
    rw [read_of_checksum_ok 16 DHT22 _ 0 0 hs hc, hf, convert_16_overflow]
    simp only [DHT.new]
    norm_num
  refine ⟨hs, hf, ?_, ?_, ?_, ?_⟩
  · rw [key]
  · rw [key]; rfl
  · rw [key]; simp only [DHT.humidity]; norm_num
  · rw [key]; simp only [DHT.humidity]; norm_num

/-! ## Result codes and repeated reads -/

theorem read_stores_decoded (intBits DEVICE : Nat) (self : DHT) (hu te : float)
    (hs : handshake self.m_data = true)
    (hc : byte (frame self.m_data) 4
            = (byte (frame self.m_data) 0 + byte (frame self.m_data) 1
                + byte (frame self.m_data) 2 + byte (frame self.m_data) 3) % 256) :
    (read intBits DEVICE self hu te).self.m_humidity
        = (convert intBits DEVICE (frame self.m_data)).1
      ∧ (read intBits DEVICE self hu te).self.m_temperature
        = (convert intBits DEVICE (frame self.m_data)).2 := by
  rw [read_of_checksum_ok intBits DEVICE self hu te hs hc]
  split
  · rename_i h
    exact ⟨h.1.symm, h.2.symm⟩
  · exact ⟨rfl, rfl⟩

theorem read_nonneg_iff (intBits DEVICE : Nat) (self : DHT) (hu te : float) :
    0 ≤ (read intBits DEVICE self hu te).ret ↔
      handshake self.m_data = true
        ∧ byte (frame self.m_data) 4
            = (byte (frame self.m_data) 0 + byte (frame self.m_data) 1
                + byte (frame self.m_data) 2 + byte (frame self.m_data) 3) % 256 := by
  rcases read_ret_cases intBits DEVICE self hu te with ⟨hs, hr⟩ | ⟨hs, hc, hr⟩ | ⟨hs, hc, hr⟩
  · simp [hs, hr]
  · have hc2 : ¬ byte (frame self.m_data) 4
            = (byte (frame self.m_data) 0 + byte (frame self.m_data) 1
                + byte (frame self.m_data) 2 + byte (frame self.m_data) 3) % 256 :=
      fun h => hc h.symm
    simp [hs, hr, hc2]
  · have h0 : 0 ≤ (read intBits DEVICE self hu te).ret := by
      rcases hr with hr | hr | hr <;> rw [hr] <;> decide
    exact ⟨fun _ => ⟨hs, hc⟩, fun _ => h0⟩

/-- C9: the value returned by `read` is one of -2, -1, 0, 1, 2; it is
non-negative exactly when the handshake succeeds and the checksum matches, -1
exactly when the handshake succeeds and the checksum does not match, and -2
exactly when the handshake fails; the two error codes differ. -/
theorem read_result_codes (intBits DEVICE : Nat) (self : DHT) (hu te : float) :
    ((read intBits DEVICE self hu te).ret = -2 ∨ (read intBits DEVICE self hu te).ret = -1
        ∨ (read intBits DEVICE self hu te).ret = 0 ∨ (read intBits DEVICE self hu te).ret = 1
        ∨ (read intBits DEVICE self hu te).ret = 2)
      ∧ (0 ≤ (read intBits DEVICE self hu te).ret ↔
          handshake self.m_data = true
            ∧ byte (frame self.m_data) 4
                = (byte (frame self.m_data) 0 + byte (frame self.m_data) 1
                    + byte (frame self.m_data) 2 + byte (frame self.m_data) 3) % 256)
      ∧ ((read intBits DEVICE self hu te).ret = -1 ↔
          handshake self.m_data = true
            ∧ byte (frame self.m_data) 4
                ≠ (byte (frame self.m_data) 0 + byte (frame self.m_data) 1
                    + byte (frame self.m_data) 2 + byte (frame self.m_data) 3) % 256)
      ∧ ((read intBits DEVICE self hu te).ret = -2 ↔ handshake self.m_data = false)
      ∧ (-1 : Int) ≠ -2 := by
  refine ⟨?_, read_nonneg_iff intBits DEVICE self hu te, ?_,
    read_ret_eq_neg_two_iff intBits DEVICE self hu te, by decide⟩
  · rcases read_ret_cases intBits DEVICE self hu te with ⟨_, hr⟩ | ⟨_, _, hr⟩ | ⟨_, _, hr⟩
    · exact Or.inl hr
    · exact Or.inr (Or.inl hr)
    · exact Or.inr (Or.inr hr)
  · rcases read_ret_cases intBits DEVICE self hu te with ⟨hs, hr⟩ | ⟨hs, hc, hr⟩ | ⟨hs, hc, hr⟩
    · simp [hs, hr]
    · simp only [hs, hr, true_and, true_iff]
      exact fun h => hc h.symm
    · have hne : (read intBits DEVICE self hu te).ret ≠ -1 := by
        rcases hr with hr | hr | hr <;> rw [hr] <;> decide
      simp [hs, hne, hc]

/-- C10: if two consecutive reads both succeed and capture the same five bytes,
the second returns 0 and leaves the stored humidity and temperature as the
first left them. -/
theorem read_twice_same_frame (intBits DEVICE : Nat) (self : DHT) (hu te hu2 te2 : float)
    (h1 : 0 ≤ (read intBits DEVICE self hu te).ret)
    (h2 : 0 ≤ (read intBits DEVICE (read intBits DEVICE self hu te).self hu2 te2).ret)
    (hf : frame (read intBits DEVICE self hu te).self.m_data = frame self.m_data) :
    (read intBits DEVICE (read intBits DEVICE self hu te).self hu2 te2).ret = 0
      ∧ (read intBits DEVICE (read intBits DEVICE self hu te).self hu2 te2).self.humidity
          = (read intBits DEVICE self hu te).self.humidity
      ∧ (read intBits DEVICE (read intBits DEVICE self hu te).self hu2 te2).self.temperature
          = (read intBits DEVICE self hu te).self.temperature := by
  obtain ⟨hs1, hc1⟩ := (read_nonneg_iff intBits DEVICE self hu te).mp h1
  obtain ⟨hs2, hc2⟩ :=
    (read_nonneg_iff intBits DEVICE (read intBits DEVICE self hu te).self hu2 te2).mp h2
  obtain ⟨e1, e2⟩ := read_stores_decoded intBits DEVICE self hu te hs1 hc1
  rw [read_of_checksum_ok intBits DEVICE (read intBits DEVICE self hu te).self hu2 te2 hs2 hc2,
    hf, if_pos ⟨e1.symm, e2.symm⟩]
  exact ⟨rfl, rfl, rfl⟩

/-- Witness of C10: a fresh DHT11 reads the frame (60, 0, 25, 0, 85) twice. -/
theorem read_twice_same_frame_witness :
    0 ≤ (read 16 DHT11 (DHT.new (steadyLine 60 0 25 0 85)) 0 0).ret
      ∧ 0 ≤ (read 16 DHT11 (read 16 DHT11 (DHT.new (steadyLine 60 0 25 0 85)) 0 0).self 0 0).ret
      ∧ frame (read 16 DHT11 (DHT.new (steadyLine 60 0 25 0 85)) 0 0).self.m_data
          = frame (DHT.new (steadyLine 60 0 25 0 85)).m_data
      ∧ (read 16 DHT11 (DHT.new (steadyLine 60 0 25 0 85)) 0 0).ret = 2
      ∧ (read 16 DHT11 (read 16 DHT11 (DHT.new (steadyLine 60 0 25 0 85)) 0 0).self 0 0).ret
          = 0 :=
  ⟨by decide, by decide, by decide, by decide,
    (read_twice_same_frame 16 DHT11 (DHT.new (steadyLine 60 0 25 0 85)) 0 0 0 0
      (by decide) (by decide) (by decide)).1⟩

/-! ## What a read changes -/

/-- C11: the stored humidity and temperature after a call of `read` differ from
those before only if the call returned 1 or 2; when it returns -2, -1 or 0 both
are unchanged, and when it returns 1 or 2 both are the values decoded from the
frame captured by that call. -/
theorem read_updates_pair (intBits DEVICE : Nat) (self : DHT) (hu te : float) :
    (((read intBits DEVICE self hu te).ret = -2 ∨ (read intBits DEVICE self hu te).ret = -1
        ∨ (read intBits DEVICE self hu te).ret = 0) →
        (read intBits DEVICE self hu te).self.humidity = self.humidity
          ∧ (read intBits DEVICE self hu te).self.temperature = self.temperature)
      ∧ (((read intBits DEVICE self hu te).ret = 1 ∨ (read intBits DEVICE self hu te).ret = 2) →
          (read intBits DEVICE self hu te).self.humidity
              = (convert intBits DEVICE (frame self.m_data)).1
            ∧ (read intBits DEVICE self hu te).self.temperature
              = (convert intBits DEVICE (frame self.m_data)).2)
      ∧ (((read intBits DEVICE self hu te).self.humidity ≠ self.humidity
            ∨ (read intBits DEVICE self hu te).self.temperature ≠ self.temperature) →
          (read intBits DEVICE self hu te).ret = 1 ∨ (read intBits DEVICE self hu te).ret = 2) := by
  simp only [DHT.humidity, DHT.temperature]
  rcases read_ret_cases intBits DEVICE self hu te with ⟨hs, _⟩ | ⟨hs, hc, _⟩ | ⟨hs, hc, _⟩
  · rw [read_of_handshake_failed intBits DEVICE self hu te hs]
    simp
  · rw [read_of_checksum_failed intBits DEVICE self hu te hs hc]
    simp
  · rw [read_of_checksum_ok intBits DEVICE self hu te hs hc]
    by_cases h1 : (convert intBits DEVICE (frame self.m_data)).1 = self.m_humidity <;>
    by_cases h2 : (convert intBits DEVICE (frame self.m_data)).2 = self.m_temperature <;>
    simp [h1, h2]

/-- Witness of C11: a DHT11 holding (60, 3) reads (60, 0, 25, 0, 85) and returns
1; both stored fields are then those of the frame. -/
theorem read_updates_pair_witness :
    (read 16 DHT11 ⟨sensorLine 60 0 25 0 85, 60, 3⟩ 0 0).ret = 1
      ∧ (read 16 DHT11 ⟨sensorLine 60 0 25 0 85, 60, 3⟩ 0 0).self.humidity
          = (convert 16 DHT11 (frame (sensorLine 60 0 25 0 85))).1
      ∧ (read 16 DHT11 ⟨sensorLine 60 0 25 0 85, 60, 3⟩ 0 0).self.temperature
          = (convert 16 DHT11 (frame (sensorLine 60 0 25 0 85))).2 :=
  ⟨by decide,
    (read_updates_pair 16 DHT11 ⟨sensorLine 60 0 25 0 85, 60, 3⟩ 0 0).2.1 (Or.inl (by decide))⟩

/-- C12: on a freshly constructed decoder, before any read, `humidity()` and
`temperature()` return 0; the accessors only read the stored fields, so the
object they are called on is the same before and after. -/
theorem fresh_accessors_zero (line : GPIO) :
    (DHT.new line).humidity = 0 ∧ (DHT.new line).temperature = 0
      ∧ (DHT.new line).callHumidity = (0, DHT.new line)
      ∧ (DHT.new line).callTemperature = (0, DHT.new line)
      ∧ ((DHT.new line).callHumidity.2).callTemperature = (0, DHT.new line)
      ∧ ∀ self : DHT, self.callHumidity = (self.humidity, self)
          ∧ self.callTemperature = (self.temperature, self) := by
  exact ⟨rfl, rfl, rfl, rfl, rfl, fun _ => ⟨rfl, rfl⟩⟩

/-! ## The device number -/

theorem convert_21_22 (intBits : Nat) (d : List Nat) :
    convert intBits DHT21 d = convert intBits DHT22 d := by
  simp [convert, DHT21, DHT22]

theorem read_ret_eq_neg_one_iff (intBits DEVICE : Nat) (self : DHT) (hu te : float) :
    (read intBits DEVICE self hu te).ret = -1 ↔
      handshake self.m_data = true
        ∧ (byte (frame self.m_data) 0 + byte (frame self.m_data) 1
            + byte (frame self.m_data) 2 + byte (frame self.m_data) 3) % 256
            ≠ byte (frame self.m_data) 4 := by
  rcases read_ret_cases intBits DEVICE self hu te with ⟨hs, hr⟩ | ⟨hs, hc, hr⟩ | ⟨hs, hc, hr⟩
  · simp [hs, hr]
  · simp [hs, hr, hc]
  · have hne : (read intBits DEVICE self hu te).ret ≠ -1 := by
      rcases hr with hr | hr | hr <;> rw [hr] <;> decide
    simp [hs, hne, hc.symm]

/-- C16: from the same stored reading and on the same line, a DHT21 and a DHT22
return the same result and end in the same state, and a DHT11 returns -2
exactly when a DHT21 or DHT22 returns -2, and -1 exactly when they return -1. -/
theorem read_variant_only_scales (intBits : Nat) (self : DHT) (hu te : float) :
    read intBits DHT21 self hu te = read intBits DHT22 self hu te
      ∧ ((read intBits DHT11 self hu te).ret = -2 ↔ (read intBits DHT22 self hu te).ret = -2)
      ∧ ((read intBits DHT11 self hu te).ret = -1 ↔ (read intBits DHT22 self hu te).ret = -1)
      ∧ ((read intBits DHT11 self hu te).ret = -2 ↔ (read intBits DHT21 self hu te).ret = -2)
      ∧ ((read intBits DHT11 self hu te).ret = -1 ↔ (read intBits DHT21 self hu te).ret = -1) := by
  refine ⟨?_, ?_, ?_, ?_, ?_⟩
  · simp only [read, convert_21_22]
  · rw [read_ret_eq_neg_two_iff, read_ret_eq_neg_two_iff]
  · rw [read_ret_eq_neg_one_iff, read_ret_eq_neg_one_iff]
  · rw [read_ret_eq_neg_two_iff, read_ret_eq_neg_two_iff]
  · rw [read_ret_eq_neg_one_iff, read_ret_eq_neg_one_iff]

/-! ## The reference arguments -/

/-- C18: the reference arguments of `read(humidity, temperature)`, taken as two
distinct variables of the caller, keep their values whenever `read` returns -2
or -1, and whenever it returns a count (0, 1 or 2) they hold the decoded values,
which are also what `humidity()` and `temperature()` return after the call. -/
theorem read_reference_arguments (intBits DEVICE : Nat) (self : DHT) (hu te : float) :
    (((read intBits DEVICE self hu te).ret = -2 ∨ (read intBits DEVICE self hu te).ret = -1) →
        (read intBits DEVICE self hu te).humidity = hu
          ∧ (read intBits DEVICE self hu te).temperature = te)
      ∧ (0 ≤ (read intBits DEVICE self hu te).ret →
          (read intBits DEVICE self hu te).humidity
              = (convert intBits DEVICE (frame self.m_data)).1
            ∧ (read intBits DEVICE self hu te).temperature
              = (convert intBits DEVICE (frame self.m_data)).2
            ∧ (read intBits DEVICE self hu te).humidity
              = (read intBits DEVICE self hu te).self.humidity
            ∧ (read intBits DEVICE self hu te).temperature
              = (read intBits DEVICE self hu te).self.temperature) := by
  simp only [DHT.humidity, DHT.temperature]
  rcases read_ret_cases intBits DEVICE self hu te with ⟨hs, _⟩ | ⟨hs, hc, _⟩ | ⟨hs, hc, _⟩
  · rw [read_of_handshake_failed intBits DEVICE self hu te hs]
    simp
  · rw [read_of_checksum_failed intBits DEVICE self hu te hs hc]
    simp
  · rw [read_of_checksum_ok intBits DEVICE self hu te hs hc]
    by_cases h1 : (convert intBits DEVICE (frame self.m_data)).1 = self.m_humidity <;>
    by_cases h2 : (convert intBits DEVICE (frame self.m_data)).2 = self.m_temperature <;>
    simp [h1, h2]

/-- Witness of C18: a checksum error leaves the arguments (7, 8) as they were,
a successful read of (60, 0, 25, 0, 85) sets them to (60, 25). -/
theorem read_reference_arguments_witness :
    ((read 16 DHT11 (DHT.new (sensorLine 60 0 25 0 86)) 7 8).humidity = 7
        ∧ (read 16 DHT11 (DHT.new (sensorLine 60 0 25 0 86)) 7 8).temperature = 8)
      ∧ (read 16 DHT11 (DHT.new (sensorLine 60 0 25 0 85)) 7 8).humidity
          = (read 16 DHT11 (DHT.new (sensorLine 60 0 25 0 85)) 7 8).self.humidity :=
  ⟨(read_reference_arguments 16 DHT11 (DHT.new (sensorLine 60 0 25 0 86)) 7 8).1
      (Or.inr (by decide)),
   ((read_reference_arguments 16 DHT11 (DHT.new (sensorLine 60 0 25 0 85)) 7 8).2
      (by decide)).2.2.1⟩

/-- C19: for the DHT11, two reads from the same stored reading whose frames both
pass handshake and checksum and agree on byte0 and byte2 decode to the same
humidity and temperature, return the same count and store the same reading,
whatever byte1 and byte3 are. -/
theorem read_v11_ignores_bytes_1_3 (intBits : Nat) (a b : DHT) (hu te hu2 te2 : float)
    (hh : b.m_humidity = a.m_humidity) (ht : b.m_temperature = a.m_temperature)
    (hsa : handshake a.m_data = true) (hsb : handshake b.m_data = true)
    (hca : byte (frame a.m_data) 4
            = (byte (frame a.m_data) 0 + byte (frame a.m_data) 1
                + byte (frame a.m_data) 2 + byte (frame a.m_data) 3) % 256)
    (hcb : byte (frame b.m_data) 4
            = (byte (frame b.m_data) 0 + byte (frame b.m_data) 1
                + byte (frame b.m_data) 2 + byte (frame b.m_data) 3) % 256)
    (h0 : byte (frame b.m_data) 0 = byte (frame a.m_data) 0)
    (h2 : byte (frame b.m_data) 2 = byte (frame a.m_data) 2) :
    convert intBits DHT11 (frame b.m_data) = convert intBits DHT11 (frame a.m_data)
      ∧ (read intBits DHT11 b hu2 te2).ret = (read intBits DHT11 a hu te).ret
      ∧ (read intBits DHT11 b hu2 te2).self.humidity = (read intBits DHT11 a hu te).self.humidity
      ∧ (read intBits DHT11 b hu2 te2).self.temperature
          = (read intBits DHT11 a hu te).self.temperature
      ∧ (read intBits DHT11 b hu2 te2).humidity = (read intBits DHT11 a hu te).humidity
      ∧ (read intBits DHT11 b hu2 te2).temperature = (read intBits DHT11 a hu te).temperature := by
  have hconv : convert intBits DHT11 (frame b.m_data) = convert intBits DHT11 (frame a.m_data) := by
    rw [convert_v11, convert_v11, h0, h2]
  refine ⟨hconv, ?_⟩
  rw [read_of_checksum_ok intBits DHT11 a hu te hsa hca,
    read_of_checksum_ok intBits DHT11 b hu2 te2 hsb hcb, hconv, hh, ht]
  simp only [DHT.humidity, DHT.temperature]
  by_cases h1 : (convert intBits DHT11 (frame a.m_data)).1 = a.m_humidity <;>
  by_cases h2 : (convert intBits DHT11 (frame a.m_data)).2 = a.m_temperature <;>
  simp [h1, h2]

/-- Witness of C19: the frames (60, 0, 25, 0, 85) and (60, 7, 25, 9, 101) read
by fresh DHT11 decoders. -/
theorem read_v11_ignores_bytes_1_3_witness :
    frame (DHT.new (sensorLine 60 0 25 0 85)).m_data = [60, 0, 25, 0, 85]
      ∧ frame (DHT.new (sensorLine 60 7 25 9 101)).m_data = [60, 7, 25, 9, 101]
      ∧ (read 16 DHT11 (DHT.new (sensorLine 60 7 25 9 101)) 0 0).ret
          = (read 16 DHT11 (DHT.new (sensorLine 60 0 25 0 85)) 0 0).ret
      ∧ (read 16 DHT11 (DHT.new (sensorLine 60 7 25 9 101)) 0 0).self.humidity
          = (read 16 DHT11 (DHT.new (sensorLine 60 0 25 0 85)) 0 0).self.humidity :=
  by
  have fa : frame (DHT.new (sensorLine 60 0 25 0 85)).m_data = [60, 0, 25, 0, 85] := by decide
  have fb : frame (DHT.new (sensorLine 60 7 25 9 101)).m_data = [60, 7, 25, 9, 101] := by decide
  have h := read_v11_ignores_bytes_1_3 16 (DHT.new (sensorLine 60 0 25 0 85))
    (DHT.new (sensorLine 60 7 25 9 101)) 0 0 0 0 (by simp [DHT.new]) (by simp [DHT.new])
    (by decide) (by decide)
    (by rw [fa]; decide) (by rw [fb]; decide) (by rw [fa, fb]; decide) (by rw [fa, fb]; decide)
  exact ⟨fa, fb, h.2.1, h.2.2.1⟩

/-! ## What a read does on the line -/

theorem pulseEvents_add (width : Nat → Int) (a b : Nat) :
    ∀ start, pulseEvents width start (a + b)
      = pulseEvents width start a ++ pulseEvents width (start + a) b := by
  induction a with
  | zero => intro start; simp [pulseEvents]
  | succ a ih =>
    intro start
    rw [show a + 1 + b = (a + b) + 1 by omega, pulseEvents, pulseEvents, ih (start + 1)]
    simp [Nat.add_assoc, Nat.add_comm 1 a]

theorem readBits_line (n : Nat) :
    ∀ (v : Nat) (g : GPIO), (readBits n v g).2
      = { g with pulses := g.pulses + n, log := g.log ++ pulseEvents g.width g.pulses n } := by
  induction n with
  | zero => intro v g; simp [readBits, pulseEvents]
  | succ n ih =>
    intro v g
    rw [readBits, ih]
    simp [ GPIO.pulse, pulseEvents, Nat.add_assoc, Nat.add_comm 1 n]

theorem readBytes_line (n : Nat) :
    ∀ (i : Nat) (c : Capture), (readBytes n i c).line
      = { c.line with pulses := c.line.pulses + 8 * n,
                      log := c.line.log ++ pulseEvents c.line.width c.line.pulses (8 * n) } := by
  induction n with
  | zero => intro i c; simp [readBytes, pulseEvents]
  | succ n ih =>
    intro i c
    rw [readBytes, ih, readBits_line, show 8 * (n + 1) = 8 + 8 * n by omega, pulseEvents_add]
    simp [Nat.add_assoc]

theorem capture_line (g : GPIO) :
    (capture g).line
      = { g with pulses := g.pulses + 40, log := g.log ++ pulseEvents g.width g.pulses 40 } := by
  rw [capture, readBytes_line]

theorem respond_first_low_eq (g : GPIO) (k : Nat) (hk : k < 16)
    (hhigh : ∀ j, j < k → g.level (g.samples + j) = true)
    (hlow : g.level (g.samples + k) = false) :
    respond g
      = (decide (¬ g.width g.pulses < THRESHOLD),
         { released g with
            samples := g.samples + (k + 1),
            pulses := g.pulses + 1,
            log := (released g).log ++ highPolls k
              ++ [Event.delayMicroseconds PULLUP, Event.sample false,
                  Event.pulse (g.width g.pulses)] }) := by
  have := awaitLow_first_low 15 (released g) k (by omega) hhigh hlow
  simp only [respond]
  rw [show (delay START_SIGNAL g.output).input = released g from rfl, this]
  have hne : ¬ (15 + 1 - k = 0) := by omega
  simp only [hne, if_false, GPIO.pulse, released, GPIO.input, GPIO.output, delay]
  by_cases hw : g.width g.pulses < THRESHOLD <;> simp [hw]

theorem read_line (intBits DEVICE : Nat) (self : DHT) (hu te : float) :
    (read intBits DEVICE self hu te).self.m_data
      = if handshake self.m_data = true then lineAfter self.m_data
        else (respond self.m_data).2 := by
  rcases read_ret_cases intBits DEVICE self hu te with ⟨hs, _⟩ | ⟨hs, hc, _⟩ | ⟨hs, hc, _⟩
  · rw [read_of_handshake_failed intBits DEVICE self hu te hs]
    simp [hs]
  · rw [read_of_checksum_failed intBits DEVICE self hu te hs hc]
    simp [hs]
  · rw [read_of_checksum_ok intBits DEVICE self hu te hs hc]
    split <;> simp [hs]

/-- The three courses a read can take on the line, with the line it leaves. -/
theorem read_line_cases (intBits DEVICE : Nat) (self : DHT) (hu te : float) :
    ((∀ k, k < 16 → self.m_data.level (self.m_data.samples + k) = true)
        ∧ handshake self.m_data = false
        ∧ (read intBits DEVICE self hu te).self.m_data
          = { released self.m_data with
                samples := self.m_data.samples + 16,
                log := (released self.m_data).log ++ highPolls 16 })
      ∨ (∃ k, k < 16 ∧ (∀ j, j < k → self.m_data.level (self.m_data.samples + j) = true)
          ∧ self.m_data.level (self.m_data.samples + k) = false
          ∧ self.m_data.width self.m_data.pulses < THRESHOLD
          ∧ handshake self.m_data = false
          ∧ (read intBits DEVICE self hu te).self.m_data
            = { released self.m_data with
                  samples := self.m_data.samples + (k + 1),
                  pulses := self.m_data.pulses + 1,
                  log := (released self.m_data).log ++ highPolls k
                    ++ [Event.delayMicroseconds PULLUP, Event.sample false,
                        Event.pulse (self.m_data.width self.m_data.pulses)] })
      ∨ (∃ k, k < 16 ∧ (∀ j, j < k → self.m_data.level (self.m_data.samples + j) = true)
          ∧ self.m_data.level (self.m_data.samples + k) = false
          ∧ ¬ self.m_data.width self.m_data.pulses < THRESHOLD
          ∧ handshake self.m_data = true
          ∧ (read intBits DEVICE self hu te).self.m_data
            = { released self.m_data with
                  samples := self.m_data.samples + (k + 1),
                  pulses := self.m_data.pulses + 1 + 40,
                  log := (released self.m_data).log ++ highPolls k
                    ++ [Event.delayMicroseconds PULLUP, Event.sample false,
                        Event.pulse (self.m_data.width self.m_data.pulses)]
                    ++ pulseEvents self.m_data.width (self.m_data.pulses + 1) 40 }) := by
  rcases first_low_or_all_high (fun k => self.m_data.level (self.m_data.samples + k)) 16
    with hall | ⟨k, hk, hhigh, hlow⟩
  · have hs : handshake self.m_data = false := by
      simp only [handshake, respond_all_high self.m_data hall]
    refine Or.inl ⟨hall, hs, ?_⟩
    rw [read_line, respond_all_high self.m_data hall]
    simp [hs]
  · have he := respond_first_low_eq self.m_data k hk hhigh hlow
    by_cases hw : self.m_data.width self.m_data.pulses < THRESHOLD
    · have hs : handshake self.m_data = false := by
        simp only [handshake, he]
        simpa using hw
      refine Or.inr (Or.inl ⟨k, hk, hhigh, hlow, hw, hs, ?_⟩)
      rw [read_line, he]
      simp [hs]
    · have hs : handshake self.m_data = true := by
        simp only [handshake, he]
        simpa using hw
      refine Or.inr (Or.inr ⟨k, hk, hhigh, hlow, hw, hs, ?_⟩)
      rw [read_line, if_pos hs, lineAfter, capture_line, he]
      simp [released, GPIO.input, GPIO.output, delay]

theorem highPolls_switches (n : Nat) : ∀ e, e ∈ highPolls n → e.switches = false := by
  induction n with
  | zero => intro e he; simp [highPolls] at he
  | succ n ih =>
    intro e he
    simp only [highPolls, List.mem_cons] at he
    rcases he with rfl | rfl | he
    · rfl
    · rfl
    · exact ih e he

theorem pulseEvents_switches (width : Nat → Int) (n : Nat) :
    ∀ start e, e ∈ pulseEvents width start n → e.switches = false := by
  induction n with
  | zero => intro start e he; simp [pulseEvents] at he
  | succ n ih =>
    intro start e he
    simp only [pulseEvents, List.mem_cons] at he
    rcases he with rfl | he
    · rfl
    · exact ih (start + 1) e he

/-- C13: whatever it returns, a call of `read` leaves the pin in input mode: its
first operation switches to output, after the start signal of 18 ms it switches
to input, and none of the operations that follow switches the direction. -/
theorem read_leaves_input_mode (intBits DEVICE : Nat) (self : DHT) (hu te : float) :
    (read intBits DEVICE self hu te).self.m_data.driving = false
      ∧ ∃ rest, (read intBits DEVICE self hu te).self.m_data.log
            = self.m_data.log ++ [Event.output, Event.delay START_SIGNAL, Event.input] ++ rest
          ∧ ∀ e, e ∈ rest → e.switches = false := by
  rcases read_line_cases intBits DEVICE self hu te with
    ⟨_, _, he⟩ | ⟨k, _, _, _, _, _, he⟩ | ⟨k, _, _, _, _, _, he⟩
  · rw [he]
    refine ⟨rfl, highPolls 16, ?_, highPolls_switches 16⟩
    simp [released, GPIO.input, GPIO.output, delay]
  · rw [he]
    refine ⟨rfl, highPolls k ++ [Event.delayMicroseconds PULLUP, Event.sample false,
      Event.pulse (self.m_data.width self.m_data.pulses)], ?_, ?_⟩
    · simp [released, GPIO.input, GPIO.output, delay]
    · intro e hmem
      rcases List.mem_append.mp hmem with h | h
      · exact highPolls_switches k e h
      · simp only [List.mem_cons, List.mem_singleton, List.not_mem_nil, or_false] at h
        rcases h with rfl | rfl | rfl <;> rfl
  · rw [he]
    refine ⟨rfl, highPolls k ++ [Event.delayMicroseconds PULLUP, Event.sample false,
      Event.pulse (self.m_data.width self.m_data.pulses)]
      ++ pulseEvents self.m_data.width (self.m_data.pulses + 1) 40, ?_, ?_⟩
    · simp [released, GPIO.input, GPIO.output, delay]
    · intro e hmem
      rcases List.mem_append.mp hmem with h | h
      · rcases List.mem_append.mp h with h | h
        · exact highPolls_switches k e h
        · simp only [List.mem_cons, List.mem_singleton, List.not_mem_nil, or_false] at h
          rcases h with rfl | rfl | rfl <;> rfl
      · exact pulseEvents_switches _ 40 _ e h

/-- C14: `read` always returns one of -2, -1, 0, 1, 2, after at least one and at
most 16 samplings of the line and at most 41 pulse measurements; a call that
passes the handshake measures exactly 41 pulses, whether it then returns -1 or
a count. -/
theorem read_bounded (intBits DEVICE : Nat) (self : DHT) (hu te : float) :
    ((read intBits DEVICE self hu te).ret = -2 ∨ (read intBits DEVICE self hu te).ret = -1
        ∨ (read intBits DEVICE self hu te).ret = 0 ∨ (read intBits DEVICE self hu te).ret = 1
        ∨ (read intBits DEVICE self hu te).ret = 2)
      ∧ self.m_data.samples + 1 ≤ (read intBits DEVICE self hu te).self.m_data.samples
      ∧ (read intBits DEVICE self hu te).self.m_data.samples ≤ self.m_data.samples + 16
      ∧ self.m_data.pulses ≤ (read intBits DEVICE self hu te).self.m_data.pulses
      ∧ (read intBits DEVICE self hu te).self.m_data.pulses ≤ self.m_data.pulses + 41
      ∧ (handshake self.m_data = true →
          (read intBits DEVICE self hu te).self.m_data.pulses = self.m_data.pulses + 41)
      ∧ ((read intBits DEVICE self hu te).ret = -1 →
          (read intBits DEVICE self hu te).self.m_data.pulses = self.m_data.pulses + 41)
      ∧ (0 ≤ (read intBits DEVICE self hu te).ret →
          (read intBits DEVICE self hu te).self.m_data.pulses = self.m_data.pulses + 41) := by
  have hcodes : (read intBits DEVICE self hu te).ret = -2
      ∨ (read intBits DEVICE self hu te).ret = -1
      ∨ (read intBits DEVICE self hu te).ret = 0 ∨ (read intBits DEVICE self hu te).ret = 1
      ∨ (read intBits DEVICE self hu te).ret = 2 := by
    rcases read_ret_cases intBits DEVICE self hu te with ⟨_, hr⟩ | ⟨_, _, hr⟩ | ⟨_, _, hr⟩
    · exact Or.inl hr
    · exact Or.inr (Or.inl hr)
    · exact Or.inr (Or.inr hr)
  have hm1 := (read_ret_eq_neg_one_iff intBits DEVICE self hu te)
  have hnn := (read_nonneg_iff intBits DEVICE self hu te)
  refine ⟨hcodes, ?_⟩
  rcases read_line_cases intBits DEVICE self hu te with
    ⟨_, hs, he⟩ | ⟨k, hk, _, _, _, hs, he⟩ | ⟨k, hk, _, _, _, hs, he⟩
  · rw [he]
    simp only [released, GPIO.input, GPIO.output, delay]
    refine ⟨by omega, by omega, by omega, by omega, ?_, ?_, ?_⟩
    · intro h; rw [hs] at h; exact Bool.noConfusion h
    · intro h; have := (hm1.mp h).1; rw [hs] at this; exact Bool.noConfusion this
    · intro h; have := (hnn.mp h).1; rw [hs] at this; exact Bool.noConfusion this
  · rw [he]
    simp only [released, GPIO.input, GPIO.output, delay]
    refine ⟨by omega, by omega, by omega, by omega, ?_, ?_, ?_⟩
    · intro h; rw [hs] at h; exact Bool.noConfusion h
    · intro h; have := (hm1.mp h).1; rw [hs] at this; exact Bool.noConfusion this
    · intro h; have := (hnn.mp h).1; rw [hs] at this; exact Bool.noConfusion this
  · rw [he]
    simp only [released, GPIO.input, GPIO.output, delay]
    exact ⟨by omega, by omega, by omega, by omega, fun _ => trivial, fun _ => trivial,
      fun _ => trivial⟩

/-- Witness of C14: a read with a checksum error and a successful read both
measure 41 pulses after one sampling. -/
theorem read_bounded_witness :
    (read 16 DHT11 (DHT.new (sensorLine 60 0 25 0 86)) 0 0).ret = -1
      ∧ (read 16 DHT11 (DHT.new (sensorLine 60 0 25 0 86)) 0 0).self.m_data.pulses = 0 + 41
      ∧ (read 16 DHT11 (DHT.new (sensorLine 60 0 25 0 85)) 0 0).self.m_data.pulses = 0 + 41 :=
  ⟨by decide,
    (read_bounded 16 DHT11 (DHT.new (sensorLine 60 0 25 0 86)) 0 0).2.2.2.2.2.2.1 (by decide),
    (read_bounded 16 DHT11 (DHT.new (sensorLine 60 0 25 0 85)) 0 0).2.2.2.2.2.2.2 (by decide)⟩

/-! ## The captured bytes -/

theorem bitOf_le_one (w : Int) : bitOf w ≤ 1 := by
  unfold bitOf
  split <;> omega

theorem shl1_or (v b : Nat) (hv : v < 128) (hb : b ≤ 1) :
    ((v <<< 1) ||| b) % 256 = 2 * v + b := by
  have h := Nat.mul_add_lt_is_or (show b < 2 ^ 1 by omega) v
  rw [Nat.shiftLeft_eq, Nat.mul_comm, ← h]
  omega

theorem readBits_value (g : GPIO) :
    (readBits 8 0 g).1
      = ∑ j in Finset.range 8, bitOf (g.width (g.pulses + j)) * 2 ^ (7 - j) := by
  simp only [readBits, GPIO.pulse, Finset.sum_range_succ, Finset.sum_range_zero, Nat.add_assoc]
  norm_num
  have h0 := bitOf_le_one (g.width g.pulses)
  have h1 := bitOf_le_one (g.width (g.pulses + 1))
  have h2 := bitOf_le_one (g.width (g.pulses + 2))
  have h3 := bitOf_le_one (g.width (g.pulses + 3))
  have h4 := bitOf_le_one (g.width (g.pulses + 4))
  have h5 := bitOf_le_one (g.width (g.pulses + 5))
  have h6 := bitOf_le_one (g.width (g.pulses + 6))
  have h7 := bitOf_le_one (g.width (g.pulses + 7))
  generalize bitOf (g.width g.pulses) = b0 at *
  generalize bitOf (g.width (g.pulses + 1)) = b1 at *
  generalize bitOf (g.width (g.pulses + 2)) = b2 at *
  generalize bitOf (g.width (g.pulses + 3)) = b3 at *
  generalize bitOf (g.width (g.pulses + 4)) = b4 at *
  generalize bitOf (g.width (g.pulses + 5)) = b5 at *
  generalize bitOf (g.width (g.pulses + 6)) = b6 at *
  generalize bitOf (g.width (g.pulses + 7)) = b7 at *
  rw [Nat.mod_eq_of_lt (show b0 < 256 by omega), shl1_or b0 b1 (by omega) h1,
    shl1_or _ b2 (by omega) h2, shl1_or _ b3 (by omega) h3, shl1_or _ b4 (by omega) h4,
    shl1_or _ b5 (by omega) h5, shl1_or _ b6 (by omega) h6, shl1_or _ b7 (by omega) h7]
  omega

theorem capture_byte (g : GPIO) (i : Nat) (hi : i < 5) :
    byte (capture g).d i
      = ∑ j in Finset.range 8, bitOf (g.width (g.pulses + 8 * i + j)) * 2 ^ (7 - j) := by
  simp only [capture, readBytes, readBits_line, List.nil_append, List.cons_append, byte]
  interval_cases i
  · simp only [List.getD_cons_zero, readBits_value]
    simp
  · simp only [List.getD_cons_zero, List.getD_cons_succ, readBits_value]
  · simp only [List.getD_cons_zero, List.getD_cons_succ, readBits_value]
  · simp only [List.getD_cons_zero, List.getD_cons_succ, readBits_value]
  · simp only [List.getD_cons_zero, List.getD_cons_succ, readBits_value]

theorem respond_ok_line (g : GPIO) (hs : handshake g = true) :
    (respond g).2.pulses = g.pulses + 1 ∧ (respond g).2.width = g.width := by
  rcases first_low_or_all_high (fun k => g.level (g.samples + k)) 16
    with hall | ⟨k, hk, hhigh, hlow⟩
  · rw [handshake, respond_all_high g hall] at hs
    exact Bool.noConfusion hs
  · rw [respond_first_low_eq g k hk hhigh hlow]
    exact ⟨rfl, rfl⟩

/-- C15: after a successful handshake, captured byte i (i in 0..4) is the sum over
j in 0..7 of bit(8 i + j) * 2^(7 - j), where bit(k) classifies the k-th data
pulse measured after the acknowledgment pulse, and the checksum accumulator
compared with byte 4 is (byte0 + byte1 + byte2 + byte3) mod 256. -/
theorem capture_msb_first (g : GPIO) (hs : handshake g = true) :
    (∀ i, i < 5 →
        byte (frame g) i = ∑ j in Finset.range 8, dataBit g (8 * i + j) * 2 ^ (7 - j))
      ∧ (capture (respond g).2).chsum
          = (byte (frame g) 0 + byte (frame g) 1 + byte (frame g) 2 + byte (frame g) 3) % 256 := by
  obtain ⟨hp, hw⟩ := respond_ok_line g hs
  refine ⟨fun i hi => ?_, capture_chsum (respond g).2⟩
  rw [frame, capture_byte (respond g).2 i hi, hp, hw]
  simp only [dataBit, Nat.add_assoc]

/-- Witness of C15: the sensor line sending (60, 0, 25, 0, 85). -/
theorem capture_msb_first_witness :
    handshake (sensorLine 60 0 25 0 85) = true
      ∧ byte (frame (sensorLine 60 0 25 0 85)) 2
          = ∑ j in Finset.range 8, dataBit (sensorLine 60 0 25 0 85) (8 * 2 + j) * 2 ^ (7 - j) :=
  ⟨by decide, (capture_msb_first (sensorLine 60 0 25 0 85) (by decide)).1 2 (by decide)⟩

/-! ## Corrupted frames -/

theorem byte_frame_lt (g : GPIO) (i : Nat) : byte (frame g) i < 256 :=
  byte_capture_lt (respond g).2 i

/-- C17: if a frame of five bytes (each in 0..255) passes the checksum, a read
that passes the handshake and captures a frame differing from it in exactly one
of the five positions returns -1 and leaves the stored reading as it was. -/
theorem read_rejects_single_byte_change (intBits DEVICE : Nat) (self : DHT) (hu te : float)
    (d : List Nat) (i : Nat)
    (hb : ∀ j, j < 5 → byte d j < 256)
    (hd : byte d 4 = (byte d 0 + byte d 1 + byte d 2 + byte d 3) % 256)
    (hs : handshake self.m_data = true)
    (hi : i < 5)
    (hdiff : byte (frame self.m_data) i ≠ byte d i)
    (hsame : ∀ j, j < 5 → j ≠ i → byte (frame self.m_data) j = byte d j) :
    (read intBits DEVICE self hu te).ret = -1
      ∧ (read intBits DEVICE self hu te).self.humidity = self.humidity
      ∧ (read intBits DEVICE self hu te).self.temperature = self.temperature := by
  have hc : (byte (frame self.m_data) 0 + byte (frame self.m_data) 1 + byte (frame self.m_data) 2
            + byte (frame self.m_data) 3) % 256 ≠ byte (frame self.m_data) 4 := by
    have f0 := byte_frame_lt self.m_data 0
    have f1 := byte_frame_lt self.m_data 1
    have f2 := byte_frame_lt self.m_data 2
    have f3 := byte_frame_lt self.m_data 3
    have f4 := byte_frame_lt self.m_data 4
    have b0 := hb 0 (by omega)
    have b1 := hb 1 (by omega)
    have b2 := hb 2 (by omega)
    have b3 := hb 3 (by omega)
    have b4 := hb 4 (by omega)
    have s0 := hsame 0 (by omega)
    have s1 := hsame 1 (by omega)
    have s2 := hsame 2 (by omega)
    have s3 := hsame 3 (by omega)
    have s4 := hsame 4 (by omega)
    interval_cases i
    · have e1 := s1 (by omega); have e2 := s2 (by omega)
      have e3 := s3 (by omega); have e4 := s4 (by omega)
      omega
    · have e0 := s0 (by omega); have e2 := s2 (by omega)
      have e3 := s3 (by omega); have e4 := s4 (by omega)
      omega
    · have e0 := s0 (by omega); have e1 := s1 (by omega)
      have e3 := s3 (by omega); have e4 := s4 (by omega)
      omega
    · have e0 := s0 (by omega); have e1 := s1 (by omega)
      have e2 := s2 (by omega); have e4 := s4 (by omega)
      omega
    · have e0 := s0 (by omega); have e1 := s1 (by omega)
      have e2 := s2 (by omega); have e3 := s3 (by omega)
      omega
  rw [read_of_checksum_failed intBits DEVICE self hu te hs hc]
  exact ⟨rfl, rfl, rfl⟩

/-- Witness of C17: byte 2 of the frame (60, 0, 25, 0, 85) is changed to 26. -/
theorem read_rejects_single_byte_change_witness :
    frame (sensorLine 60 0 26 0 85) = [60, 0, 26, 0, 85]
      ∧ (read 16 DHT11 ⟨sensorLine 60 0 26 0 85, 60, 25⟩ 0 0).ret = -1
      ∧ (read 16 DHT11 ⟨sensorLine 60 0 26 0 85, 60, 25⟩ 0 0).self.humidity = 60
      ∧ (read 16 DHT11 ⟨sensorLine 60 0 26 0 85, 60, 25⟩ 0 0).self.temperature = 25 := by
  have hf : frame (sensorLine 60 0 26 0 85) = [60, 0, 26, 0, 85] := by decide
  refine ⟨hf, read_rejects_single_byte_change 16 DHT11 ⟨sensorLine 60 0 26 0 85, 60, 25⟩ 0 0
    [60, 0, 25, 0, 85] 2 (by decide) (by decide) (by decide) (by decide) ?_ ?_⟩
  · show byte (frame (sensorLine 60 0 26 0 85)) 2 ≠ byte [60, 0, 25, 0, 85] 2
    rw [hf]; decide
  · show ∀ j, j < 5 → j ≠ 2 →
      byte (frame (sensorLine 60 0 26 0 85)) j = byte [60, 0, 25, 0, 85] j
    rw [hf]; decide

/-! ## Injectivity of the DHT21 and DHT22 conversion -/

theorem intValue_inj (w x y : Nat) (hw : 16 ≤ w) (hx : x < 65536) (hy : y < 65536)
    (h : intValue w x = intValue w y) : x = y := by
  obtain ⟨h1, h2⟩ := two_pow_ge w hw
  have hP : 2 ^ w = 2 * 2 ^ (w - 1) := by
    rw [show w = (w - 1) + 1 by omega, Nat.pow_succ]
    simp
    ring
  have hmx : x % 2 ^ w = x := Nat.mod_eq_of_lt (by omega)
  have hmy : y % 2 ^ w = y := Nat.mod_eq_of_lt (by omega)
  simp only [intValue, hmx, hmy] at h
  generalize 2 ^ w = P at *
  generalize 2 ^ (w - 1) = H at *
  split at h <;> split at h <;> omega

theorem convert_humidity_eq_iff (intBits DEVICE : Nat) (d e : List Nat) (hw : 16 ≤ intBits)
    (hD : DEVICE ≠ 11) (hd0 : byte d 0 < 256) (hd1 : byte d 1 < 256)
    (he0 : byte e 0 < 256) (he1 : byte e 1 < 256) :
    (convert intBits DEVICE d).1 = (convert intBits DEVICE e).1
      ↔ byte d 0 = byte e 0 ∧ byte d 1 = byte e 1 := by
  obtain ⟨h1, _⟩ := two_pow_ge intBits hw
  have hsd : intShl intBits (byte d 0) 8 = byte d 0 <<< 8 := by
    refine Nat.mod_eq_of_lt ?_
    rw [Nat.shiftLeft_eq]
    omega
  have hse : intShl intBits (byte e 0) 8 = byte e 0 <<< 8 := by
    refine Nat.mod_eq_of_lt ?_
    rw [Nat.shiftLeft_eq]
    omega
  simp only [convert, if_neg hD, hsd, hse, shl8_or _ _ hd1, shl8_or _ _ he1]
  constructor
  · intro h
    have h10 : (10 : ℚ) ≠ 0 := by norm_num
    have h2 := (div_left_inj' h10).mp h
    have h3 := Int.cast_injective h2
    have h4 := intValue_inj intBits _ _ hw (by omega) (by omega) h3
    omega
  · rintro ⟨a, b⟩
    rw [a, b]

theorem signed_tenths_eq_iff (p q : Prop) [Decidable p] [Decidable q] (m n : Nat) :
    (if p then -((m : ℚ) / 10) else (m : ℚ) / 10) = (if q then -((n : ℚ) / 10) else (n : ℚ) / 10)
      ↔ m = n ∧ ((p ↔ q) ∨ m = 0) := by
  have hm : (0 : ℚ) ≤ m := Nat.cast_nonneg m
  have hn : (0 : ℚ) ≤ n := Nat.cast_nonneg n
  by_cases hp : p <;> by_cases hq : q <;> simp only [hp, hq, if_true, if_false]
  · constructor
    · intro h
      have : (m : ℚ) = n := by linarith
      exact ⟨Nat.cast_injective this, Or.inl trivial⟩
    · rintro ⟨rfl, _⟩; rfl
  · constructor
    · intro h
      have h1 : (m : ℚ) = 0 := by linarith
      have h2 : (n : ℚ) = 0 := by linarith
      have h3 : m = 0 := by exact_mod_cast h1
      have h4 : n = 0 := by exact_mod_cast h2
      exact ⟨by omega, Or.inr h3⟩
    · rintro ⟨rfl, h | h⟩
      · exact absurd (h.mp trivial) (by simp)
      · subst h; simp
  · constructor
    · intro h
      have h1 : (m : ℚ) = 0 := by linarith
      have h2 : (n : ℚ) = 0 := by linarith
      have h3 : m = 0 := by exact_mod_cast h1
      have h4 : n = 0 := by exact_mod_cast h2
      exact ⟨by omega, Or.inr h3⟩
    · rintro ⟨rfl, h | h⟩
      · exact absurd (h.mpr trivial) (by simp)
      · subst h; simp
  · constructor
    · intro h
      have : (m : ℚ) = n := by linarith
      exact ⟨Nat.cast_injective this, Or.inl trivial⟩
    · rintro ⟨rfl, _⟩; rfl

theorem convert_eq_iff (intBits DEVICE : Nat) (d e : List Nat) (hw : 16 ≤ intBits)
    (hD : DEVICE ≠ 11) (hd : ∀ j, j < 4 → byte d j < 256) (he : ∀ j, j < 4 → byte e j < 256) :
    convert intBits DEVICE d = convert intBits DEVICE e ↔ agreeUpToSignedZero d e := by
  have d0 := hd 0 (by omega)
  have d1 := hd 1 (by omega)
  have d2 := hd 2 (by omega)
  have d3 := hd 3 (by omega)
  have e0 := he 0 (by omega)
  have e1 := he 1 (by omega)
  have e2 := he 2 (by omega)
  have e3 := he 3 (by omega)
  rw [Prod.ext_iff, convert_humidity_eq_iff intBits DEVICE d e hw hD d0 d1 e0 e1,
    convert_temperature intBits DEVICE d hw hD d2 d3,
    convert_temperature intBits DEVICE e hw hD e2 e3, signed_tenths_eq_iff, agreeUpToSignedZero]
  constructor
  · rintro ⟨⟨a, b⟩, c, h⟩
    refine ⟨a, b, by omega, ?_⟩
    rcases h with h | h
    · by_cases hh : 128 ≤ byte d 2
      · have := h.mp hh
        left; omega
      · have : ¬ 128 ≤ byte e 2 := fun k => hh (h.mpr k)
        left; omega
    · omega
  · rintro ⟨a, b, c, h⟩
    refine ⟨⟨a, b⟩, ?_, ?_⟩
    · rcases h with h | h <;> omega
    · rcases h with h | h
      · left; rw [h]
      · right; omega

theorem read_ret_zero_iff (intBits DEVICE : Nat) (self : DHT) (hu te : float)
    (hs : handshake self.m_data = true)
    (hc : byte (frame self.m_data) 4
            = (byte (frame self.m_data) 0 + byte (frame self.m_data) 1
                + byte (frame self.m_data) 2 + byte (frame self.m_data) 3) % 256) :
    (read intBits DEVICE self hu te).ret = 0
      ↔ convert intBits DEVICE (frame self.m_data) = (self.m_humidity, self.m_temperature) := by
  rw [read_of_checksum_ok intBits DEVICE self hu te hs hc, Prod.ext_iff]
  by_cases h1 : (convert intBits DEVICE (frame self.m_data)).1 = self.m_humidity <;>
  by_cases h2 : (convert intBits DEVICE (frame self.m_data)).2 = self.m_temperature <;>
  simp [h1, h2]

/-- C20: for the DHT21 and DHT22 (with an `int` of at least 16 bits), two frames
decode to the same humidity and temperature if and only if they agree on byte0,
byte1 and byte3 and either agree on byte2 or have byte3 = 0 and byte2 in
{0x00, 0x80}. So when two consecutive reads succeed, the second returns 0 exactly
when its frame agrees in that sense with that of the first, and at least 1
otherwise. -/
theorem convert_injective_up_to_signed_zero (intBits DEVICE : Nat) (hw : 16 ≤ intBits)
    (hD : DEVICE = DHT21 ∨ DEVICE = DHT22) :
    (∀ d e : List Nat, (∀ j, j < 4 → byte d j < 256) → (∀ j, j < 4 → byte e j < 256) →
        (convert intBits DEVICE d = convert intBits DEVICE e ↔ agreeUpToSignedZero d e))
      ∧ ∀ (self : DHT) (hu te hu2 te2 : float),
          0 ≤ (read intBits DEVICE self hu te).ret →
          0 ≤ (read intBits DEVICE (read intBits DEVICE self hu te).self hu2 te2).ret →
          ((read intBits DEVICE (read intBits DEVICE self hu te).self hu2 te2).ret = 0
              ↔ agreeUpToSignedZero (frame (read intBits DEVICE self hu te).self.m_data)
                  (frame self.m_data))
            ∧ (¬ agreeUpToSignedZero (frame (read intBits DEVICE self hu te).self.m_data)
                  (frame self.m_data) →
                1 ≤ (read intBits DEVICE (read intBits DEVICE self hu te).self hu2 te2).ret) := by
  have hne : DEVICE ≠ 11 := by
    rcases hD with h | h <;> rw [h] <;> decide
  refine ⟨fun d e hd he => convert_eq_iff intBits DEVICE d e hw hne hd he, ?_⟩
  intro self hu te hu2 te2 h1 h2
  obtain ⟨hs1, hc1⟩ := (read_nonneg_iff intBits DEVICE self hu te).mp h1
  obtain ⟨hs2, hc2⟩ :=
    (read_nonneg_iff intBits DEVICE (read intBits DEVICE self hu te).self hu2 te2).mp h2
  obtain ⟨e1, e2⟩ := read_stores_decoded intBits DEVICE self hu te hs1 hc1
  have key : (read intBits DEVICE (read intBits DEVICE self hu te).self hu2 te2).ret = 0
      ↔ agreeUpToSignedZero (frame (read intBits DEVICE self hu te).self.m_data)
          (frame self.m_data) := by
    rw [read_ret_zero_iff intBits DEVICE _ hu2 te2 hs2 hc2, e1, e2,
      ← convert_eq_iff intBits DEVICE _ _ hw hne (fun j _ => byte_frame_lt _ j)
        (fun j _ => byte_frame_lt _ j)]
  refine ⟨key, fun hn => ?_⟩
  have : (read intBits DEVICE (read intBits DEVICE self hu te).self hu2 te2).ret ≠ 0 :=
    fun h => hn (key.mp h)
  omega

/-- Witness of C20: the data bytes (2, 10, 0, 0) and (2, 10, 0x80, 0) decode to
the same values, and (2, 10, 0, 0) and (2, 11, 0, 0) do not; a fresh DHT22 that
reads the first and then the second of the former pair returns 0 the second
time. -/
theorem convert_injective_up_to_signed_zero_witness :
    16 ≤ 16 ∧ (DHT22 = DHT21 ∨ DHT22 = DHT22)
      ∧ convert 16 DHT22 [2, 10, 0, 0, 12] = convert 16 DHT22 [2, 10, 0x80, 0, 0x8c]
      ∧ convert 16 DHT22 [2, 10, 0, 0, 12] ≠ convert 16 DHT22 [2, 11, 0, 0, 13]
      ∧ (read 16 DHT22
          (read 16 DHT22 (DHT.new (twoFrameLine 2 10 0 0 12 2 10 0x80 0 0x8c)) 0 0).self 0 0).ret
          = 0 := by
  have h := (convert_injective_up_to_signed_zero 16 DHT22 (by decide) (Or.inr rfl)).1
  have hB := (convert_injective_up_to_signed_zero 16 DHT22 (by decide) (Or.inr rfl)).2
    (DHT.new (twoFrameLine 2 10 0 0 12 2 10 0x80 0 0x8c)) 0 0 0 0
  have hl : (read 16 DHT22 (DHT.new (twoFrameLine 2 10 0 0 12 2 10 0x80 0 0x8c)) 0 0).self.m_data
      = lineAfter (DHT.new (twoFrameLine 2 10 0 0 12 2 10 0x80 0 0x8c)).m_data := by
    rw [read_line, if_pos (by decide)]
  have f1 : frame (DHT.new (twoFrameLine 2 10 0 0 12 2 10 0x80 0 0x8c)).m_data
      = [2, 10, 0, 0, 12] := by decide
  have f2 : frame (lineAfter (DHT.new (twoFrameLine 2 10 0 0 12 2 10 0x80 0 0x8c)).m_data)
      = [2, 10, 0x80, 0, 0x8c] := by decide
  have h1 : 0 ≤ (read 16 DHT22 (DHT.new (twoFrameLine 2 10 0 0 12 2 10 0x80 0 0x8c)) 0 0).ret :=
    (read_nonneg_iff 16 DHT22 _ 0 0).mpr ⟨by decide, by rw [f1]; decide⟩
  have h2 : 0 ≤ (read 16 DHT22
      (read 16 DHT22 (DHT.new (twoFrameLine 2 10 0 0 12 2 10 0x80 0 0x8c)) 0 0).self 0 0).ret :=
    (read_nonneg_iff 16 DHT22 _ 0 0).mpr ⟨by rw [hl]; decide, by rw [hl, f2]; decide⟩
  refine ⟨by decide, Or.inr rfl, ?_, ?_, ?_⟩
  · refine (h [2, 10, 0, 0, 12] [2, 10, 0x80, 0, 0x8c] (by decide) (by decide)).mpr ?_
    simp [agreeUpToSignedZero, byte]
  · intro heq
    have := (h [2, 10, 0, 0, 12] [2, 11, 0, 0, 13] (by decide) (by decide)).mp heq
    simp [agreeUpToSignedZero, byte] at this
  · refine (hB h1 h2).1.mpr ?_
    rw [hl, f1, f2]
    simp [agreeUpToSignedZero, byte]

end ArduinoDHT
